import Mathlib

/-!
# BNO055 command-line front end and sample aggregation

A shallow embedding of `src/imuLib/getbno055.c` (`usage`, `parseargs`,
`print_calstat`) and of `src/main.cpp` (`imuSensor::data`, `main`), followed by
the properties proved about them.

Conventions of the embedding:

* a C `char` is a Lean `Char`; a character array is a `List Char` of the
  array's size, and the string it holds is what stands before the first NUL;
* `int` variables are `Int`;
* `stdout` is the text written so far;
* `exit(n)` ends a run with the outcome `exited n`.
-/

namespace Bno055

set_option maxRecDepth 100000

/-! ## C strings -/

/-- Characters of a C array or of the memory a `char*` points to. -/
abbrev CStr := List Char

/-- The terminating character of a C string. -/
def NUL : Char := Char.ofNat 0

/-- The string a character sequence holds: everything before the first NUL. -/
def c_str (s : CStr) : CStr := s.takeWhile (fun c => c != NUL)

/-- C `strlen`: number of characters before the first NUL. -/
def strlen (s : CStr) : Nat := (c_str s).length

/-- C `strncpy(dst, src, n)`: the first `n` characters of `dst` become the
string of `src`, cut at `n` characters and padded with NUL up to `n`; what
`dst` holds beyond `n` stays. -/
def strncpy (dst src : CStr) (n : Nat) : CStr :=
  (c_str src ++ List.replicate n NUL).take n ++ dst.drop n

/-- A `char name[n] = "text"` initialiser: the text, then NUL up to `n`. -/
def char_array (n : Nat) (text : CStr) : CStr :=
  (c_str text ++ List.replicate n NUL).take n

/-- C `isprint` in the "C" locale. -/
def isprint (c : Char) : Bool := decide (32 ≤ c.toNat) && decide (c.toNat ≤ 126)

/-- What `printf("%s", p)` writes: the string at `p`; the C library writes
`(null)` for a null pointer. -/
def fmt_s : Option CStr → String
  | some s => String.mk (c_str s)
  | none => "(null)"

/-- What `printf("%x", c)` writes: lower-case hexadecimal digits. -/
def fmt_x (c : Char) : String := String.mk (Nat.toDigits 16 c.toNat)

/-! ## `getopt` of the C library

`parseargs` reads its arguments only through `getopt(argc, argv,
"a:b:dm:p:rt:l:w:o:hv")`. The functions below give the sequence of results of
the successive `getopt` calls on an argument vector, up to the call that
returns `-1`, after the behaviour of the GNU C library. `opterr = 0` keeps
`getopt` from writing messages of its own. -/

/-- The option string `parseargs` passes to `getopt`. -/
def optstring : CStr := "a:b:dm:p:rt:l:w:o:hv".toList

/-- One result of `getopt`: the returned character, and the values of
`optarg` and `optopt` after the call. -/
structure GetoptRet where
  arg : Char
  optarg : Option CStr
  optopt : Char
deriving DecidableEq, Repr

/-- C `strchr(optstring, c)`: the option string from the first `c` on. -/
def strchr (s : CStr) (c : Char) : Option CStr :=
  match s.dropWhile (fun d => d != c) with
  | [] => none
  | t => some t

/-- The options `getopt` reports from the characters `cs` that remain of one
`-xyz` argument. `next` is the argument that follows, if any. Result: the
reported options, whether `next` was taken as an option argument, and
`optopt`. A character that is not in the option string, or is `:` or `;`,
is reported as `?`; so is an option missing its argument, which only arises
on the last argument and ends the scan. -/
def getopt_cluster (next : Option CStr) : Char → CStr →
    List GetoptRet × Bool × Char
  | optopt, [] => ([], false, optopt)
  | optopt, c :: cs =>
    let temp := strchr optstring c
    if temp = none ∨ c = ':' ∨ c = ';' then
      let r := getopt_cluster next c cs
      (⟨'?', none, c⟩ :: r.1, r.2.1, r.2.2)
    else if (temp.getD []).get? 1 = some ':' then
      if (temp.getD []).get? 2 = some ':' then
        (if cs = [] then [⟨c, none, optopt⟩] else [⟨c, some cs, optopt⟩],
          false, optopt)
      else if cs ≠ [] then ([⟨c, some cs, optopt⟩], false, optopt)
      else
        match next with
        | none => ([⟨'?', none, c⟩], false, c)
        | some a => ([⟨c, some a, optopt⟩], true, optopt)
    else
      let r := getopt_cluster next optopt cs
      (⟨c, none, optopt⟩ :: r.1, r.2.1, r.2.2)

/-- An argument that is not an option: it does not start with `-`, or it is
`-` alone. -/
def nonoption (a : CStr) : Bool :=
  match a with
  | [] => true
  | c :: cs => c != '-' || cs == []

/-- The results of the successive `getopt` calls over the arguments after
`argv[0]`. `posix` is whether `POSIXLY_CORRECT` is set in the environment:
then the scan stops at the first non-option, otherwise non-options are
passed over. `--` ends the scan. -/
def getopt_scan (posix : Bool) : Char → List CStr → List GetoptRet
  | _, [] => []
  | optopt, a :: rest =>
    if a = "--".toList then []
    else if nonoption a then
      if posix then [] else getopt_scan posix optopt rest
    else
      match rest with
      | [] => (getopt_cluster none optopt (a.drop 1)).1
      | b :: rest' =>
        let r := getopt_cluster (some (c_str b)) optopt (a.drop 1)
        r.1 ++ (if r.2.1 then getopt_scan posix r.2.2 rest'
                else getopt_scan posix r.2.2 (b :: rest'))

/-- The results of all `getopt` calls `parseargs` makes on `argv`, in order.
Every argument is read as a C string; `optopt` starts as `?`. -/
def getopt_results (posix : Bool) (argv : List CStr) : List GetoptRet :=
  getopt_scan posix '?' ((argv.drop 1).map c_str)

/-! ## The sensor library as its callers see it

`getbno055.h` and `i2c_bno055.c` are not among the sources. The callers under
`src/` use the names below. -/

/-- Modelled from the spec: `opmode_t` of `getbno055.h`, the operational
modes, "enumerated variant over config, acconly, magonly, gyronly, accmag,
accgyro, maggyro, amg, imu, compass, m4g, ndof, ndof_fmc". -/
inductive opmode_t where
  | config | acconly | magonly | gyronly | accmag | accgyro | maggyro | amg
  | imu | compass | m4g | ndof | ndof_fmc
deriving DecidableEq, Repr

/-- Modelled from the spec: `power_t` of `getbno055.h`, the power modes,
"enumerated variant over normal, low, suspend". -/
inductive power_t where
  | normal | low | suspend
deriving DecidableEq, Repr

/-- Modelled from the spec: `struct bnocal` of `getbno055.h` as far as
`print_calstat` reads it, "four 2-bit fields (system, gyro, accel, mag)";
the fields are integers of the C type the header gives them. -/
structure bnocal where
  scal_st : Int
  gcal_st : Int
  acal_st : Int
  mcal_st : Int
deriving DecidableEq, Repr

/-- Modelled from the spec: `struct bnoacc` of `getbno055.h`. The spec makes
every converted component a floating-point value ("all outputs are floating
point"); a component is held as the rational number the `double` stands
for. -/
structure bnoacc where
  adata_x : ℚ
  adata_y : ℚ
  adata_z : ℚ
deriving DecidableEq

/-- Modelled from the spec: `struct bnomag` of `getbno055.h`, components as
in `bnoacc`. -/
structure bnomag where
  mdata_x : ℚ
  mdata_y : ℚ
  mdata_z : ℚ
deriving DecidableEq

/-- Modelled from the spec: `struct bnogyr` of `getbno055.h`, components as
in `bnoacc`. -/
structure bnogyr where
  gdata_x : ℚ
  gdata_y : ℚ
  gdata_z : ℚ
deriving DecidableEq

/-- Modelled from the spec: `struct bnoeul` of `getbno055.h`, components as
in `bnoacc`. -/
structure bnoeul where
  eul_head : ℚ
  eul_roll : ℚ
  eul_pitc : ℚ
deriving DecidableEq

/-- Modelled from the spec: `struct bnoqua` of `getbno055.h`, components as
in `bnoacc`. -/
structure bnoqua where
  quater_w : ℚ
  quater_x : ℚ
  quater_y : ℚ
  quater_z : ℚ
deriving DecidableEq

/-- Modelled from the spec: `struct bnogra` of `getbno055.h`, components as
in `bnoacc`. -/
structure bnogra where
  gravityx : ℚ
  gravityy : ℚ
  gravityz : ℚ
deriving DecidableEq

/-- Modelled from the spec: `struct bnolin` of `getbno055.h`, components as
in `bnoacc`. -/
structure bnolin where
  linacc_x : ℚ
  linacc_y : ℚ
  linacc_z : ℚ
deriving DecidableEq

/-- A call of a function of the sensor library. -/
inductive Call where
  | get_i2cbus (i2cbus i2caddr : CStr)
  | set_mode (newmode : opmode_t)
  | set_power (newmode : power_t)
  | get_calstatus
  | get_acc
  | get_mag
  | get_gyr
  | get_eul
  | get_qua
  | get_gra
  | get_lin
deriving DecidableEq, Repr

/-- The sensor behind the library: what each reading function returns and
leaves in the caller's struct, given the library calls made before it. Every
library call is taken to return to its caller. -/
structure Sensor where
  get_calstatus : List Call → Int × bnocal
  get_acc : List Call → Int × bnoacc
  get_mag : List Call → Int × bnomag
  get_gyr : List Call → Int × bnogyr
  get_eul : List Call → Int × bnoeul
  get_qua : List Call → Int × bnoqua
  get_gra : List Call → Int × bnogra
  get_lin : List Call → Int × bnolin

/-! ## Global variables of `getbno055.c` -/

/-- The global variables of `getbno055.c`, the text written to `stdout`, and
the calls made to the sensor library so far. -/
structure State where
  verbose : Int
  outflag : Int
  argflag : Int
  opr_mode : CStr
  pwr_mode : CStr
  datatype : CStr
  senaddr : CStr
  i2c_bus : CStr
  htmfile : CStr
  calfile : CStr
  stdout : String
  calls : List Call
deriving DecidableEq, Repr

/-- The globals as their definitions initialise them. `I2CBUS` is the macro
of `getbno055.h`; arrays without an initialiser are zero-filled. -/
def State.init (I2CBUS : CStr) : State where
  verbose := 0
  outflag := 0
  argflag := 0
  opr_mode := List.replicate 9 NUL
  pwr_mode := List.replicate 8 NUL
  datatype := List.replicate 256 NUL
  senaddr := char_array 256 "0x28".toList
  i2c_bus := char_array 256 I2CBUS
  htmfile := List.replicate 256 NUL
  calfile := List.replicate 256 NUL
  stdout := ""
  calls := []

/-- C `printf` of an already formatted text. -/
def State.printf (s : State) (text : String) : State :=
  { s with stdout := s.stdout ++ text }

/-- How a function that may call `exit` ends: it returns, it ends the program
through `exit(code)`, or it reads through a null pointer. -/
inductive Outcome where
  | returned (s : State)
  | exited (code : Int) (s : State)
  | fault (s : State)
deriving DecidableEq, Repr

/-- The exit status the parent process sees for `exit(code)`: the low eight
bits of `code`. -/
def exit_status (code : Int) : Nat := (code % 256).toNat

/-! ## `usage` -/

/-- The text of the `usage[]` array. -/
def usage_text : String :=
    "Usage: getbno055 [-a hex i2c-addr] [-m <opr_mode>] [-t acc|gyr|mag|eul|qua|lin|gra|inf|cal|con] [-r] [-w calfile] [-l calfile] [-o htmlfile] [-v]\n" ++
    "\n" ++
    "Command line parameters have the following format:\n" ++
    "   -a   sensor I2C bus address in hex, Example: -a 0x28 (default)\n" ++
    "   -b   I2C bus to query, Example: -b /dev/i2c-1 (default)\n" ++
    "   -d   dump the complete sensor register map content\n" ++
    "   -m   set sensor operational mode. mode arguments:\n" ++
    "           config   = configuration mode\n" ++
    "           acconly  = accelerometer only\n" ++
    "           magonly  = magnetometer only\n" ++
    "           gyronly  = gyroscope only\n" ++
    "           accmag   = accelerometer + magnetometer\n" ++
    "           accgyro  = accelerometer + gyroscope\n" ++
    "           maggyro  = magetometer + gyroscope\n" ++
    "           amg      = accelerometer + magnetometer + gyroscope\n" ++
    "           imu      = accelerometer + gyroscope fusion -> rel. orientation\n" ++
    "           compass  = accelerometer + magnetometer fusion -> abs. orientation\n" ++
    "           m4g      = accelerometer + magnetometer fusion -> rel. orientation\n" ++
    "           ndof     = accelerometer + mag + gyro fusion -> abs. orientation\n" ++
    "           ndof_fmc = ndof, using fast magnetometer calibration (FMC)\n" ++
    "   -p   set sensor power mode. mode arguments:\n" ++
    "          normal    = required sensors and MCU always on (default)\n" ++
    "          low       = enter sleep mode during motion inactivity\n" ++
    "          suspend   = sensor paused, all parts put to sleep\n" ++
    "   -r   reset sensor\n" ++
    "   -t   read and output sensor data. data type arguments:\n" ++
    "           acc = Accelerometer (X-Y-Z axis values)\n" ++
    "           gyr = Gyroscope (X-Y-Z axis values)\n" ++
    "           mag = Magnetometer (X-Y-Z axis values)\n" ++
    "           eul = Orientation E (H-R-P values as Euler angles)\n" ++
    "           qua = Orientation Q (W-X-Y-Z values as Quaternation)\n" ++
    "           gra = GravityVector (X-Y-Z axis values)\n" ++
    "           lin = Linear Accel (X-Y-Z axis values)\n" ++
    "           inf = Sensor info (23 version and state values)\n" ++
    "           cal = Calibration data (mag, gyro and accel calibration values)\n" ++
    "           con = Continuous data (eul)\n" ++
    "   -l   load sensor calibration data from file, Example -l ./bno055.cal\n" ++
    "   -w   write sensor calibration data to file, Example -w ./bno055.cal\n" ++
    "   -o   output sensor data to HTML table file, requires -t, Example: -o ./bno055.html\n" ++
    "   -h   display this message\n" ++
    "   -v   enable debug output\n" ++
    "\n" ++
    "Note: The sensor is executing calibration in the background, but only in fusion mode.\n" ++
    "\n" ++
    "Usage examples:\n" ++
    "./getbno055 -a 0x28 -t inf -v\n" ++
    "./getbno055 -t cal -v\n" ++
    "./getbno055 -t eul -o ./bno055.html\n" ++
    "./getbno055 -m ndof\n" ++
    "./getbno055 -w ./bno055.cal\n"

/-- The operational mode names the usage text documents for `-m`. -/
def opr_mode_names : List String :=
  ["config", "acconly", "magonly", "gyronly", "accmag", "accgyro", "maggyro",
   "amg", "imu", "compass", "m4g", "ndof", "ndof_fmc"]

/-- The power mode names the usage text documents for `-p`. -/
def pwr_mode_names : List String := ["normal", "low", "suspend"]

/-- C `usage()`: `printf(usage)`; the text holds no conversion. -/
def usage (s : State) : State := s.printf usage_text

/-! ## `parseargs` -/

/-- The `if(verbose == 1) printf("Debug: arg -x, value %s\n", optarg);` line
that opens most cases, for the option letter `x`. -/
def debug (x : String) (optarg : Option CStr) (s : State) : State :=
  if s.verbose = 1 then
    s.printf ("Debug: arg -" ++ x ++ ", value " ++ fmt_s optarg ++ "\n")
  else s

/-- The body of the `switch (arg)` of `parseargs` for one result of
`getopt`. `strlen(optarg)` of a null `optarg` is a fault; `getopt` never
leaves `optarg` null for an option that takes an argument. -/
def parseargs_case (r : GetoptRet) (s : State) : Outcome :=
  if r.arg = 'v' then .returned { s with verbose := 1 }
  else if r.arg = 'a' then
    let s := debug "a" r.optarg s
    match r.optarg with
    | none => .fault s
    | some optarg =>
      if strlen optarg ≠ 4 then
        .exited (-1) (s.printf "Error: Cannot get valid -a sensor address argument.\n")
      else .returned { s with senaddr := strncpy s.senaddr optarg 256 }
  else if r.arg = 'b' then
    let s := debug "b" r.optarg s
    match r.optarg with
    | none => .fault s
    | some optarg =>
      if strlen optarg ≥ 256 then
        .exited (-1) (s.printf "Error: invalid i2c bus argument.\n")
      else .returned { s with i2c_bus := strncpy s.i2c_bus optarg 256 }
  else if r.arg = 'd' then
    let s := debug "d" r.optarg s
    .returned { s with argflag := 1 }
  else if r.arg = 'm' then
    let s := debug "m" r.optarg s
    match r.optarg with
    | none => .fault s
    | some optarg =>
      if strlen optarg ≥ 9 then
        .exited (-1) (s.printf "Error: invalid opr_mode argument.\n")
      else .returned { s with opr_mode := strncpy s.opr_mode optarg 9 }
  else if r.arg = 'p' then
    let s := debug "p" r.optarg s
    match r.optarg with
    | none => .fault s
    | some optarg =>
      if strlen optarg ≥ 8 then
        .exited (-1) (s.printf "Error: invalid pwr_mode argument.\n")
      else .returned { s with pwr_mode := strncpy s.pwr_mode optarg 8 }
  else if r.arg = 'r' then
    let s := debug "r" r.optarg s
    .returned { s with argflag := 2 }
  else if r.arg = 't' then
    let s := debug "t" r.optarg s
    match r.optarg with
    | none => .fault s
    | some optarg =>
      if strlen optarg ≠ 3 then
        .exited (-1) (s.printf "Error: Cannot get valid -t data type argument.\n")
      else .returned { s with datatype := strncpy s.datatype optarg 256 }
  else if r.arg = 'l' then
    let s := { s with argflag := 3 }
    let s := debug "l" r.optarg s
    match r.optarg with
    | none => .fault s
    | some optarg =>
      if strlen optarg ≥ 256 then
        .exited (-1) (s.printf "Error: invalid calfile argument.\n")
      else .returned { s with calfile := strncpy s.calfile optarg 256 }
  else if r.arg = 'w' then
    let s := { s with argflag := 4 }
    let s := debug "w" r.optarg s
    match r.optarg with
    | none => .fault s
    | some optarg =>
      if strlen optarg ≥ 256 then
        .exited (-1) (s.printf "Error: invalid calfile argument.\n")
      else .returned { s with calfile := strncpy s.calfile optarg 256 }
  else if r.arg = 'o' then
    let s := { s with outflag := 1 }
    let s := debug "o" r.optarg s
    match r.optarg with
    | none => .fault s
    | some optarg =>
      if strlen optarg ≥ 256 then
        .exited (-1) (s.printf "Error: invalid htmfile argument.\n")
      else .returned { s with htmfile := strncpy s.htmfile optarg 256 }
  else if r.arg = 'h' then .exited 0 (usage s)
  else if r.arg = '?' then
    let s :=
      if isprint r.optopt then
        s.printf ("Error: Unknown option `-" ++ String.singleton r.optopt ++ "'.\n")
      else
        s.printf ("Error: Unknown option character `\\x" ++ fmt_x r.optopt ++ "'.\n")
    .exited (-1) (usage s)
  else .returned (usage s)

/-- The `while ((arg = getopt(...)) != -1) switch (arg) ...` loop over the
results of the successive `getopt` calls: it goes on while the case returns
to the loop, and returns when `getopt` returns `-1`. -/
def parseargs_loop : List GetoptRet → State → Outcome
  | [], s => .returned s
  | r :: rs, s =>
    match parseargs_case r s with
    | .returned s1 => parseargs_loop rs s1
    | o => o

/-- C `parseargs(argc, argv)` with `argc = argv.length`, run from the state
`s`; `posix` is whether `POSIXLY_CORRECT` is set in the environment. -/
def parseargs (posix : Bool) (argv : List CStr) (s : State) : Outcome :=
  if argv.length = 1 then .exited (-1) (usage s)
  else parseargs_loop (getopt_results posix argv) s


/-! ## `print_calstat` -/

/-- One `switch` of `print_calstat` over a status field: the text it prints;
no case matches a value outside 0..3 and then nothing is printed. -/
def print_calstat_switch (st : Int) (s : State) : State :=
  if st = 0 then s.printf "Uncalibrated\n"
  else if st = 1 then s.printf "Minimal Calibrated\n"
  else if st = 2 then s.printf "Mostly Calibrated\n"
  else if st = 3 then s.printf "Fully calibrated\n"
  else s

/-- C `print_calstat()`, run on the sensor `sen` from the state `s`. -/
def print_calstat (sen : Sensor) (s : State) : Outcome :=
  let r := sen.get_calstatus s.calls
  let s := { s with calls := s.calls ++ [Call.get_calstatus] }
  let res := r.1
  let bnoc := r.2
  if res ≠ 0 then
    .exited (-1) (s.printf "Error: Cannot read calibration state.\n")
  else
    let s := s.printf "Sensor System Calibration = "
    let s := print_calstat_switch bnoc.scal_st s
    let s := s.printf "    Gyroscope Calibration = "
    let s := print_calstat_switch bnoc.gcal_st s
    let s := s.printf "Accelerometer Calibration = "
    let s := print_calstat_switch bnoc.acal_st s
    let s := s.printf " Magnetometer Calibration = "
    let s := print_calstat_switch bnoc.mcal_st s
    .returned s

/-! ## `main.cpp`: storage of automatic arrays -/

/-- The least value of `int` (32 bits). -/
def INT_MIN : Int := -2147483648

/-- The greatest value of `int` (32 bits). -/
def INT_MAX : Int := 2147483647

/-- The conversion of a `double` to `int` that `data[i] = x` performs: the
fractional part is discarded; there is no defined result when the truncated
value does not fit an `int`. -/
def double_to_int (x : ℚ) : Option Int :=
  let t := Int.tdiv x.num (x.den : Int)
  if INT_MIN ≤ t ∧ t ≤ INT_MAX then some t else none

/-- A pointer to `int`: the array object it points into and the index of the
element it points to. -/
structure IntPtr where
  block : Nat
  off : Nat
deriving DecidableEq, Repr

/-- The state of a run of `main.cpp`: the library calls made so far; the `int`
arrays of automatic storage whose lifetime has begun and not ended, each under
its own number, an element being `none` while it holds no determinate value;
the number of the next array to be created; the assignments to array elements
made so far, as array number and index; and the text written to `cout`. -/
structure Machine where
  calls : List Call
  objects : List (Nat × List (Option Int))
  next_block : Nat
  writes : List (Nat × Nat)
  stdout : String
deriving DecidableEq, Repr

/-- The state in which `main` starts. -/
def Machine.init : Machine := ⟨[], [], 0, [], ""⟩

/-- Record a call of a library function. -/
def Machine.call (m : Machine) (c : Call) : Machine :=
  { m with calls := m.calls ++ [c] }

/-- The definition `int a[n];` of an automatic array: its lifetime begins, its
elements hold no determinate value. -/
def Machine.alloc (m : Machine) (n : Nat) : Nat × Machine :=
  (m.next_block,
    { m with objects := (m.next_block, List.replicate n none) :: m.objects,
             next_block := m.next_block + 1 })

/-- The end of the lifetime of an automatic array, when the function that
defines it returns. -/
def Machine.free (m : Machine) (b : Nat) : Machine :=
  { m with objects := m.objects.filter (fun o => o.1 != b) }

/-- The elements of the array `b`, while its lifetime lasts. -/
def Machine.array (m : Machine) (b : Nat) : Option (List (Option Int)) :=
  (m.objects.find? (fun o => o.1 == b)).map (fun o => o.2)

/-- The assignment `a[i] = v` to an element of the array `b`. -/
def Machine.store (m : Machine) (b i : Nat) (v : Option Int) : Machine :=
  { m with
    objects := m.objects.map (fun o => if o.1 = b then (o.1, o.2.set i v) else o),
    writes := m.writes ++ [(b, i)] }

/-- The read `*(p + i)`: the value of the element, or `none` when `p` points
to an array whose lifetime has ended, outside the array, or to an element
without a determinate value. -/
def Machine.load (m : Machine) (p : IntPtr) (i : Nat) : Option Int :=
  match m.array p.block with
  | none => none
  | some a => (a.get? (p.off + i)).join

/-- C++ `cout << v << endl` for an `int`. -/
def Machine.cout (m : Machine) (v : Int) : Machine :=
  { m with stdout := m.stdout ++ toString v ++ "\n" }

/-! ## `main.cpp`: `imuSensor` and `main` -/

/-- The data members of `class imuSensor`. -/
structure imuSensor where
  senaddr : CStr
  i2c_bus : CStr
deriving DecidableEq, Repr

/-- The constructor `imuSensor()`: the members take their initialisers
(`I2CBUS` is the macro of `getbno055.h`), then `get_i2cbus(i2c_bus, senaddr)`
is called. -/
def imuSensor.new (I2CBUS : CStr) (m : Machine) : imuSensor × Machine :=
  let self : imuSensor := ⟨char_array 256 "0x28".toList, char_array 256 I2CBUS⟩
  (self, m.call (Call.get_i2cbus self.i2c_bus self.senaddr))

/-- C++ `imuSensor::mode(newmode)`. -/
def imuSensor.mode (_self : imuSensor) (newmode : opmode_t) (m : Machine) : Machine :=
  m.call (Call.set_mode newmode)

/-- C++ `imuSensor::power(newmode1)`. -/
def imuSensor.power (_self : imuSensor) (newmode1 : power_t) (m : Machine) : Machine :=
  m.call (Call.set_power newmode1)

/-- The body of `imuSensor::data()` up to its `return` statement: the array
`int data[22]` is defined, and after each of the seven library calls the
components it left in the struct are assigned to their elements, each
converted to `int`. The value the library functions return is not looked at.
Result: the number of the array and the state. -/
def imuSensor.data_body (_self : imuSensor) (sen : Sensor) (m : Machine) : Nat × Machine :=
  let (data, m) := m.alloc 22
  let bnod1 := (sen.get_acc m.calls).2
  let m := m.call Call.get_acc
  let m := m.store data 0 (double_to_int bnod1.adata_x)
  let m := m.store data 1 (double_to_int bnod1.adata_y)
  let m := m.store data 2 (double_to_int bnod1.adata_z)
  let bnod2 := (sen.get_mag m.calls).2
  let m := m.call Call.get_mag
  let m := m.store data 3 (double_to_int bnod2.mdata_x)
  let m := m.store data 4 (double_to_int bnod2.mdata_y)
  let m := m.store data 5 (double_to_int bnod2.mdata_z)
  let bnod3 := (sen.get_gyr m.calls).2
  let m := m.call Call.get_gyr
  let m := m.store data 6 (double_to_int bnod3.gdata_x)
  let m := m.store data 7 (double_to_int bnod3.gdata_y)
  let m := m.store data 8 (double_to_int bnod3.gdata_z)
  let bnod4 := (sen.get_eul m.calls).2
  let m := m.call Call.get_eul
  let m := m.store data 9 (double_to_int bnod4.eul_head)
  let m := m.store data 10 (double_to_int bnod4.eul_roll)
  let m := m.store data 11 (double_to_int bnod4.eul_pitc)
  let bnod5 := (sen.get_qua m.calls).2
  let m := m.call Call.get_qua
  let m := m.store data 12 (double_to_int bnod5.quater_w)
  let m := m.store data 13 (double_to_int bnod5.quater_x)
  let m := m.store data 14 (double_to_int bnod5.quater_y)
  let m := m.store data 15 (double_to_int bnod5.quater_z)
  let bnod6 := (sen.get_gra m.calls).2
  let m := m.call Call.get_gra
  let m := m.store data 16 (double_to_int bnod6.gravityx)
  let m := m.store data 17 (double_to_int bnod6.gravityy)
  let m := m.store data 18 (double_to_int bnod6.gravityz)
  let bnod7 := (sen.get_lin m.calls).2
  let m := m.call Call.get_lin
  let m := m.store data 19 (double_to_int bnod7.linacc_x)
  let m := m.store data 20 (double_to_int bnod7.linacc_y)
  let m := m.store data 21 (double_to_int bnod7.linacc_z)
  (data, m)

/-- C++ `imuSensor::data()`: the body, then `return data;`: the result is a
pointer to the first element of the array, and the lifetime of the array ends
with the return. -/
def imuSensor.data (self : imuSensor) (sen : Sensor) (m : Machine) : IntPtr × Machine :=
  let (data, m) := self.data_body sen m
  (⟨data, 0⟩, m.free data)

/-- How a run of `main` ends: it returns a value, or its behaviour is
undefined from a read that yields no value on. -/
inductive MainOutcome where
  | returned (code : Int) (m : Machine)
  | undefined (m : Machine)
deriving DecidableEq, Repr

/-- The loop `for (int i = 0; i < 22; i++) cout << *(imuData + i) << endl;`
of `main` from the index `i` on, with `n` iterations left, and the
`return 0;` after it. -/
def main_loop (imuData : IntPtr) : Nat → Nat → Machine → MainOutcome
  | 0, _, m => .returned 0 m
  | n + 1, i, m =>
    match m.load imuData i with
    | none => .undefined m
    | some v => main_loop imuData n (i + 1) (m.cout v)

/-- C++ `main()`. -/
def main (I2CBUS : CStr) (sen : Sensor) (m : Machine) : MainOutcome :=
  let (imu1, m) := imuSensor.new I2CBUS m
  let m := imu1.mode opmode_t.ndof_fmc m
  let (imuData, m) := imu1.data sen m
  main_loop imuData 22 0 m

/-! ## Vocabulary of the statements -/

/-- The option letters of `optstring` that take an argument. -/
def arg_letters : List Char := ['a', 'b', 'm', 'p', 't', 'l', 'w', 'o']

/-- A result of `getopt` is well formed when `optarg` is set for an option
that takes an argument. -/
def GetoptRet.wf (r : GetoptRet) : Prop :=
  r.arg ∈ arg_letters → r.optarg ≠ none

/-- The validation failures of `parseargs` on one result of `getopt`: a `-a`
argument whose length is not 4, a `-t` argument whose length is not 3, a `-m`
argument of length 9 or more, a `-p` argument of length 8 or more, a `-b`,
`-l`, `-w` or `-o` argument of length 256 or more, and `?`, which `getopt`
returns for an unknown option and for an option missing its argument. -/
def validation_failure (r : GetoptRet) : Bool :=
  let n := strlen (r.optarg.getD [])
  (r.arg == 'a' && n != 4) || (r.arg == 't' && n != 3) ||
  (r.arg == 'm' && decide (9 ≤ n)) || (r.arg == 'p' && decide (8 ≤ n)) ||
  ((r.arg == 'b' || r.arg == 'l' || r.arg == 'w' || r.arg == 'o') && decide (256 ≤ n)) ||
  r.arg == '?'

/-- The value `argflag` has after a case of the `switch` that returns to the
loop, from the value `old` it had before: `-d` = 1 dump, `-r` = 2 reset,
`-l` = 3 load calibration, `-w` = 4 write calibration. -/
def action_code (c : Char) (old : Int) : Int :=
  if c = 'd' then 1 else if c = 'r' then 2 else if c = 'l' then 3
  else if c = 'w' then 4 else old

/-- The text for the value of a calibration status field: 0 "Uncalibrated",
1 "Minimal Calibrated", 2 "Mostly Calibrated", 3 "Fully calibrated". -/
def cal_text (v : Int) : String :=
  if v = 0 then "Uncalibrated"
  else if v = 1 then "Minimal Calibrated"
  else if v = 2 then "Mostly Calibrated"
  else "Fully calibrated"

/-- The four lines of a calibration status, without their line ends: system,
gyroscope, accelerometer, magnetometer, each the label of the field and the
text for its value. -/
def calstat_lines (bnoc : bnocal) : List String :=
  ["Sensor System Calibration = " ++ cal_text bnoc.scal_st,
   "    Gyroscope Calibration = " ++ cal_text bnoc.gcal_st,
   "Accelerometer Calibration = " ++ cal_text bnoc.acal_st,
   " Magnetometer Calibration = " ++ cal_text bnoc.mcal_st]

/-- A sensor that answers every call of a function the same way, whatever
was called before. -/
def steady_sensor (res : Int) (cal : bnocal) (acc : bnoacc) (mag : bnomag) (gyr : bnogyr)
    (eul : bnoeul) (qua : bnoqua) (gra : bnogra) (lin : bnolin) : Sensor :=
  ⟨fun _ => (res, cal), fun _ => (res, acc), fun _ => (res, mag), fun _ => (res, gyr),
    fun _ => (res, eul), fun _ => (res, qua), fun _ => (res, gra), fun _ => (res, lin)⟩

/-- The seven library calls of `imuSensor::data()`, in the order accelerometer,
magnetometer, gyroscope, Euler angles, quaternion, gravity, linear
acceleration. -/
def data_calls : List Call :=
  [Call.get_acc, Call.get_mag, Call.get_gyr, Call.get_eul, Call.get_qua, Call.get_gra,
    Call.get_lin]

/-- The 22 components the sensor leaves in the structs when the seven reading
functions are called once each in the order of `data_calls`, after the calls
`calls`: accelerometer x, y, z, magnetometer x, y, z, gyroscope x, y, z,
Euler heading, roll, pitch, quaternion w, x, y, z, gravity x, y, z, linear
acceleration x, y, z. -/
def readings (sen : Sensor) (calls : List Call) : List ℚ :=
  let acc := (sen.get_acc calls).2
  let mag := (sen.get_mag (calls ++ data_calls.take 1)).2
  let gyr := (sen.get_gyr (calls ++ data_calls.take 2)).2
  let eul := (sen.get_eul (calls ++ data_calls.take 3)).2
  let qua := (sen.get_qua (calls ++ data_calls.take 4)).2
  let gra := (sen.get_gra (calls ++ data_calls.take 5)).2
  let lin := (sen.get_lin (calls ++ data_calls.take 6)).2
  [acc.adata_x, acc.adata_y, acc.adata_z, mag.mdata_x, mag.mdata_y, mag.mdata_z,
   gyr.gdata_x, gyr.gdata_y, gyr.gdata_z, eul.eul_head, eul.eul_roll, eul.eul_pitc,
   qua.quater_w, qua.quater_x, qua.quater_y, qua.quater_z,
   gra.gravityx, gra.gravityy, gra.gravityz, lin.linacc_x, lin.linacc_y, lin.linacc_z]

/-! ## Facts about C strings -/

theorem c_str_idem (s : CStr) : c_str (c_str s) = c_str s := by
  unfold c_str
  induction s with
  | nil => rfl
  | cons c cs ih =>
    by_cases h : (c != NUL) = true
    · simp only [List.takeWhile_cons, h, if_true, ih]
    · simp [List.takeWhile_cons, h]

theorem c_str_append_NUL (s t : CStr) : c_str (c_str s ++ NUL :: t) = c_str s := by
  unfold c_str
  induction s with
  | nil => simp [List.takeWhile_cons]
  | cons c cs ih =>
    by_cases h : (c != NUL) = true
    · simp only [List.takeWhile_cons, h, if_true, List.cons_append, ih]
    · simp [List.takeWhile_cons, h]

theorem strncpy_eq (dst src : CStr) (n : Nat) (h : strlen src < n) :
    strncpy dst src n = c_str src ++ List.replicate (n - strlen src) NUL ++ dst.drop n := by
  unfold strncpy strlen at *
  rw [List.take_append_eq_append_take, List.take_of_length_le (le_of_lt h),
    List.take_replicate, Nat.min_eq_left (Nat.sub_le _ _)]

theorem c_str_strncpy (dst src : CStr) (n : Nat) (h : strlen src < n) :
    c_str (strncpy dst src n) = c_str src := by
  rw [strncpy_eq dst src n h]
  obtain ⟨k, hk⟩ : ∃ k, n - strlen src = k + 1 := ⟨n - strlen src - 1, by omega⟩
  rw [hk, List.replicate_succ, List.append_assoc, List.cons_append, c_str_append_NUL]

theorem strncpy_length (dst src : CStr) (n : Nat) (h : dst.length = n) :
    (strncpy dst src n).length = n := by
  unfold strncpy
  simp [List.length_take, h]

theorem strncpy_terminated (dst src : CStr) (n : Nat) (h : strlen src < n) :
    (strncpy dst src n).get? (strlen src) = some NUL := by
  rw [strncpy_eq dst src n h]
  obtain ⟨k, hk⟩ : ∃ k, n - strlen src = k + 1 := ⟨n - strlen src - 1, by omega⟩
  rw [hk, List.replicate_succ, List.append_assoc]
  unfold strlen
  rw [List.get?_eq_getElem?, List.getElem?_append_right (le_refl _)]
  simp

theorem getopt_results_m (posix : Bool) (argv0 optarg : CStr) :
    getopt_results posix [argv0, "-m".toList, optarg] = [⟨'m', some (c_str optarg), '?'⟩] := by
  have h : c_str ['-', 'm'] = ['-', 'm'] := by decide
  simp [getopt_results, getopt_scan, getopt_cluster, c_str_idem, nonoption, strchr, optstring, h]

theorem getopt_results_p (posix : Bool) (argv0 optarg : CStr) :
    getopt_results posix [argv0, "-p".toList, optarg] = [⟨'p', some (c_str optarg), '?'⟩] := by
  have h : c_str ['-', 'p'] = ['-', 'p'] := by decide
  simp [getopt_results, getopt_scan, getopt_cluster, c_str_idem, nonoption, strchr, optstring, h]

/-! ## Facts about `debug` and `usage` -/

@[simp] theorem debug_verbose (x : String) (o : Option CStr) (s : State) :
    (debug x o s).verbose = s.verbose := by
  unfold debug State.printf; split <;> rfl

@[simp] theorem debug_outflag (x : String) (o : Option CStr) (s : State) :
    (debug x o s).outflag = s.outflag := by
  unfold debug State.printf; split <;> rfl

@[simp] theorem debug_argflag (x : String) (o : Option CStr) (s : State) :
    (debug x o s).argflag = s.argflag := by
  unfold debug State.printf; split <;> rfl

@[simp] theorem debug_opr_mode (x : String) (o : Option CStr) (s : State) :
    (debug x o s).opr_mode = s.opr_mode := by
  unfold debug State.printf; split <;> rfl

@[simp] theorem debug_pwr_mode (x : String) (o : Option CStr) (s : State) :
    (debug x o s).pwr_mode = s.pwr_mode := by
  unfold debug State.printf; split <;> rfl

@[simp] theorem debug_datatype (x : String) (o : Option CStr) (s : State) :
    (debug x o s).datatype = s.datatype := by
  unfold debug State.printf; split <;> rfl

@[simp] theorem debug_senaddr (x : String) (o : Option CStr) (s : State) :
    (debug x o s).senaddr = s.senaddr := by
  unfold debug State.printf; split <;> rfl

@[simp] theorem debug_i2c_bus (x : String) (o : Option CStr) (s : State) :
    (debug x o s).i2c_bus = s.i2c_bus := by
  unfold debug State.printf; split <;> rfl

@[simp] theorem debug_htmfile (x : String) (o : Option CStr) (s : State) :
    (debug x o s).htmfile = s.htmfile := by
  unfold debug State.printf; split <;> rfl

@[simp] theorem debug_calfile (x : String) (o : Option CStr) (s : State) :
    (debug x o s).calfile = s.calfile := by
  unfold debug State.printf; split <;> rfl

@[simp] theorem debug_calls (x : String) (o : Option CStr) (s : State) :
    (debug x o s).calls = s.calls := by
  unfold debug State.printf; split <;> rfl

/-! ## Facts about `printf` and `usage` -/

@[simp] theorem printf_verbose (s : State) (t : String) : (s.printf t).verbose = s.verbose := rfl

@[simp] theorem usage_verbose (s : State) : (usage s).verbose = s.verbose := rfl

@[simp] theorem printf_outflag (s : State) (t : String) : (s.printf t).outflag = s.outflag := rfl

@[simp] theorem usage_outflag (s : State) : (usage s).outflag = s.outflag := rfl

@[simp] theorem printf_argflag (s : State) (t : String) : (s.printf t).argflag = s.argflag := rfl

@[simp] theorem usage_argflag (s : State) : (usage s).argflag = s.argflag := rfl

@[simp] theorem printf_opr_mode (s : State) (t : String) : (s.printf t).opr_mode = s.opr_mode := rfl

@[simp] theorem usage_opr_mode (s : State) : (usage s).opr_mode = s.opr_mode := rfl

@[simp] theorem printf_pwr_mode (s : State) (t : String) : (s.printf t).pwr_mode = s.pwr_mode := rfl

@[simp] theorem usage_pwr_mode (s : State) : (usage s).pwr_mode = s.pwr_mode := rfl

@[simp] theorem printf_datatype (s : State) (t : String) : (s.printf t).datatype = s.datatype := rfl

@[simp] theorem usage_datatype (s : State) : (usage s).datatype = s.datatype := rfl

@[simp] theorem printf_senaddr (s : State) (t : String) : (s.printf t).senaddr = s.senaddr := rfl

@[simp] theorem usage_senaddr (s : State) : (usage s).senaddr = s.senaddr := rfl

@[simp] theorem printf_i2c_bus (s : State) (t : String) : (s.printf t).i2c_bus = s.i2c_bus := rfl

@[simp] theorem usage_i2c_bus (s : State) : (usage s).i2c_bus = s.i2c_bus := rfl

@[simp] theorem printf_htmfile (s : State) (t : String) : (s.printf t).htmfile = s.htmfile := rfl

@[simp] theorem usage_htmfile (s : State) : (usage s).htmfile = s.htmfile := rfl

@[simp] theorem printf_calfile (s : State) (t : String) : (s.printf t).calfile = s.calfile := rfl

@[simp] theorem usage_calfile (s : State) : (usage s).calfile = s.calfile := rfl

@[simp] theorem printf_calls (s : State) (t : String) : (s.printf t).calls = s.calls := rfl

@[simp] theorem usage_calls (s : State) : (usage s).calls = s.calls := rfl

/-! ## The cases of the `switch` -/

theorem arg_cases (c : Char) :
    c = 'v' ∨ c = 'a' ∨ c = 'b' ∨ c = 'd' ∨ c = 'm' ∨ c = 'p' ∨ c = 'r' ∨ c = 't' ∨
    c = 'l' ∨ c = 'w' ∨ c = 'o' ∨ c = 'h' ∨ c = '?' ∨
    (c ≠ 'v' ∧ c ≠ 'a' ∧ c ≠ 'b' ∧ c ≠ 'd' ∧ c ≠ 'm' ∧ c ≠ 'p' ∧ c ≠ 'r' ∧ c ≠ 't' ∧
      c ≠ 'l' ∧ c ≠ 'w' ∧ c ≠ 'o' ∧ c ≠ 'h' ∧ c ≠ '?') := by
  tauto

/-- What one case of the `switch` does on a well-formed result of `getopt`:
on a validation failure it ends the program through `exit(-1)`, on `-h`
through `exit(0)`, and otherwise it returns to the loop with `senaddr`,
`argflag`, `calfile` and `outflag` as given; it calls no library function. -/
theorem parseargs_case_spec (r : GetoptRet) (s : State) (hwf : r.wf) :
    (validation_failure r = true ∧
      ∃ s1, parseargs_case r s = .exited (-1) s1 ∧ s1.calls = s.calls) ∨
    (validation_failure r = false ∧ r.arg = 'h' ∧
      parseargs_case r s = .exited 0 (usage s)) ∨
    (validation_failure r = false ∧ r.arg ≠ 'h' ∧
      ∃ s1, parseargs_case r s = .returned s1 ∧ s1.calls = s.calls ∧
        s1.senaddr = (if r.arg = 'a' then strncpy s.senaddr (r.optarg.getD []) 256
          else s.senaddr) ∧
        s1.argflag = action_code r.arg s.argflag ∧
        s1.calfile = (if r.arg = 'l' ∨ r.arg = 'w' then
          strncpy s.calfile (r.optarg.getD []) 256 else s.calfile) ∧
        s1.outflag = (if r.arg = 'o' then 1 else s.outflag)) := by
  unfold GetoptRet.wf arg_letters at hwf
  rcases arg_cases r.arg with hx | hx | hx | hx | hx | hx | hx | hx | hx | hx | hx | hx | hx | hx
  · rw [parseargs_case, if_pos hx]
    unfold validation_failure action_code
    rw [hx]
    exact Or.inr (Or.inr ⟨by simp, by decide, _, rfl, by simp, by simp, by simp, by simp, by simp⟩)
  · have hw := hwf (by rw [hx]; decide)
    rw [parseargs_case, if_neg (by rw [hx]; decide), if_pos hx]
    unfold validation_failure action_code
    rw [hx]
    generalize r.optarg = o at hw ⊢
    cases o with
    | none => exact absurd rfl hw
    | some a =>
      dsimp only
      by_cases hb : strlen a ≠ 4
      · left
        rw [if_pos hb]
        exact ⟨by simp at hb ⊢; omega, _, rfl, by simp⟩
      · right; right
        rw [if_neg hb]
        exact ⟨by simp at hb ⊢; omega, by decide, _, rfl, by simp, by simp, by simp, by simp, by simp⟩
  · have hw := hwf (by rw [hx]; decide)
    rw [parseargs_case, if_neg (by rw [hx]; decide), if_neg (by rw [hx]; decide), if_pos hx]
    unfold validation_failure action_code
    rw [hx]
    generalize r.optarg = o at hw ⊢
    cases o with
    | none => exact absurd rfl hw
    | some a =>
      dsimp only
      by_cases hb : strlen a ≥ 256
      · left
        rw [if_pos hb]
        exact ⟨by simp at hb ⊢; omega, _, rfl, by simp⟩
      · right; right
        rw [if_neg hb]
        exact ⟨by simp at hb ⊢; omega, by decide, _, rfl, by simp, by simp, by simp, by simp, by simp⟩
  · rw [parseargs_case, if_neg (by rw [hx]; decide), if_neg (by rw [hx]; decide), if_neg (by rw [hx]; decide), if_pos hx]
    unfold validation_failure action_code
    rw [hx]
    exact Or.inr (Or.inr ⟨by simp, by decide, _, rfl, by simp, by simp, by simp, by simp, by simp⟩)
  · have hw := hwf (by rw [hx]; decide)
    rw [parseargs_case, if_neg (by rw [hx]; decide), if_neg (by rw [hx]; decide), if_neg (by rw [hx]; decide), if_neg (by rw [hx]; decide), if_pos hx]
    unfold validation_failure action_code
    rw [hx]
    generalize r.optarg = o at hw ⊢
    cases o with
    | none => exact absurd rfl hw
    | some a =>
      dsimp only
      by_cases hb : strlen a ≥ 9
      · left
        rw [if_pos hb]
        exact ⟨by simp at hb ⊢; omega, _, rfl, by simp⟩
      · right; right
        rw [if_neg hb]
        exact ⟨by simp at hb ⊢; omega, by decide, _, rfl, by simp, by simp, by simp, by simp, by simp⟩
  · have hw := hwf (by rw [hx]; decide)
    rw [parseargs_case, if_neg (by rw [hx]; decide), if_neg (by rw [hx]; decide), if_neg (by rw [hx]; decide), if_neg (by rw [hx]; decide), if_neg (by rw [hx]; decide), if_pos hx]
    unfold validation_failure action_code
    rw [hx]
    generalize r.optarg = o at hw ⊢
    cases o with
    | none => exact absurd rfl hw
    | some a =>
      dsimp only
      by_cases hb : strlen a ≥ 8
      · left
        rw [if_pos hb]
        exact ⟨by simp at hb ⊢; omega, _, rfl, by simp⟩
      · right; right
        rw [if_neg hb]
        exact ⟨by simp at hb ⊢; omega, by decide, _, rfl, by simp, by simp, by simp, by simp, by simp⟩
  · rw [parseargs_case, if_neg (by rw [hx]; decide), if_neg (by rw [hx]; decide), if_neg (by rw [hx]; decide), if_neg (by rw [hx]; decide), if_neg (by rw [hx]; decide), if_neg (by rw [hx]; decide), if_pos hx]
    unfold validation_failure action_code
    rw [hx]
    exact Or.inr (Or.inr ⟨by simp, by decide, _, rfl, by simp, by simp, by simp, by simp, by simp⟩)
  · have hw := hwf (by rw [hx]; decide)
    rw [parseargs_case, if_neg (by rw [hx]; decide), if_neg (by rw [hx]; decide), if_neg (by rw [hx]; decide), if_neg (by rw [hx]; decide), if_neg (by rw [hx]; decide), if_neg (by rw [hx]; decide), if_neg (by rw [hx]; decide), if_pos hx]
    unfold validation_failure action_code
    rw [hx]
    generalize r.optarg = o at hw ⊢
    cases o with
    | none => exact absurd rfl hw
    | some a =>
      dsimp only
      by_cases hb : strlen a ≠ 3
      · left
        rw [if_pos hb]
        exact ⟨by simp at hb ⊢; omega, _, rfl, by simp⟩
      · right; right
        rw [if_neg hb]
        exact ⟨by simp at hb ⊢; omega, by decide, _, rfl, by simp, by simp, by simp, by simp, by simp⟩
  · have hw := hwf (by rw [hx]; decide)
    rw [parseargs_case, if_neg (by rw [hx]; decide), if_neg (by rw [hx]; decide), if_neg (by rw [hx]; decide), if_neg (by rw [hx]; decide), if_neg (by rw [hx]; decide), if_neg (by rw [hx]; decide), if_neg (by rw [hx]; decide), if_neg (by rw [hx]; decide), if_pos hx]
    unfold validation_failure action_code
    rw [hx]
    generalize r.optarg = o at hw ⊢
    cases o with
    | none => exact absurd rfl hw
    | some a =>
      dsimp only
      by_cases hb : strlen a ≥ 256
      · left
        rw [if_pos hb]
        exact ⟨by simp at hb ⊢; omega, _, rfl, by simp⟩
      · right; right
        rw [if_neg hb]
        exact ⟨by simp at hb ⊢; omega, by decide, _, rfl, by simp, by simp, by simp, by simp, by simp⟩
  · have hw := hwf (by rw [hx]; decide)
    rw [parseargs_case, if_neg (by rw [hx]; decide), if_neg (by rw [hx]; decide), if_neg (by rw [hx]; decide), if_neg (by rw [hx]; decide), if_neg (by rw [hx]; decide), if_neg (by rw [hx]; decide), if_neg (by rw [hx]; decide), if_neg (by rw [hx]; decide), if_neg (by rw [hx]; decide), if_pos hx]
    unfold validation_failure action_code
    rw [hx]
    generalize r.optarg = o at hw ⊢
    cases o with
    | none => exact absurd rfl hw
    | some a =>
      dsimp only
      by_cases hb : strlen a ≥ 256
      · left
        rw [if_pos hb]
        exact ⟨by simp at hb ⊢; omega, _, rfl, by simp⟩
      · right; right
        rw [if_neg hb]
        exact ⟨by simp at hb ⊢; omega, by decide, _, rfl, by simp, by simp, by simp, by simp, by simp⟩
  · have hw := hwf (by rw [hx]; decide)
    rw [parseargs_case, if_neg (by rw [hx]; decide), if_neg (by rw [hx]; decide), if_neg (by rw [hx]; decide), if_neg (by rw [hx]; decide), if_neg (by rw [hx]; decide), if_neg (by rw [hx]; decide), if_neg (by rw [hx]; decide), if_neg (by rw [hx]; decide), if_neg (by rw [hx]; decide), if_neg (by rw [hx]; decide), if_pos hx]
    unfold validation_failure action_code
    rw [hx]
    generalize r.optarg = o at hw ⊢
    cases o with
    | none => exact absurd rfl hw
    | some a =>
      dsimp only
      by_cases hb : strlen a ≥ 256
      · left
        rw [if_pos hb]
        exact ⟨by simp at hb ⊢; omega, _, rfl, by simp⟩
      · right; right
        rw [if_neg hb]
        exact ⟨by simp at hb ⊢; omega, by decide, _, rfl, by simp, by simp, by simp, by simp, by simp⟩
  · rw [parseargs_case, if_neg (by rw [hx]; decide), if_neg (by rw [hx]; decide), if_neg (by rw [hx]; decide), if_neg (by rw [hx]; decide), if_neg (by rw [hx]; decide), if_neg (by rw [hx]; decide), if_neg (by rw [hx]; decide), if_neg (by rw [hx]; decide), if_neg (by rw [hx]; decide), if_neg (by rw [hx]; decide), if_neg (by rw [hx]; decide), if_pos hx]
    unfold validation_failure
    rw [hx]
    exact Or.inr (Or.inl ⟨by simp, rfl, rfl⟩)
  · rw [parseargs_case, if_neg (by rw [hx]; decide), if_neg (by rw [hx]; decide), if_neg (by rw [hx]; decide), if_neg (by rw [hx]; decide), if_neg (by rw [hx]; decide), if_neg (by rw [hx]; decide), if_neg (by rw [hx]; decide), if_neg (by rw [hx]; decide), if_neg (by rw [hx]; decide), if_neg (by rw [hx]; decide), if_neg (by rw [hx]; decide), if_neg (by rw [hx]; decide), if_pos hx]
    unfold validation_failure
    rw [hx]
    exact Or.inl ⟨by simp, _, rfl, by split <;> simp⟩
  · obtain ⟨h1, h2, h3, h4, h5, h6, h7, h8, h9, h10, h11, h12, h13⟩ := hx
    rw [parseargs_case, if_neg h1, if_neg h2, if_neg h3, if_neg h4, if_neg h5, if_neg h6,
      if_neg h7, if_neg h8, if_neg h9, if_neg h10, if_neg h11, if_neg h12, if_neg h13]
    unfold validation_failure action_code
    exact Or.inr (Or.inr ⟨by simp [*], h12, _, rfl, by simp [*], by simp [*], by simp [*],
      by simp [*], by simp [*]⟩)


/-! ## C1: mode names are stored -/

theorem parseargs_case_m (r : GetoptRet) (optarg : CStr) (s : State)
    (ha : r.arg = 'm') (ho : r.optarg = some optarg) (hl : strlen optarg ≤ 8) :
    parseargs_case r s = .returned
      { debug "m" (some optarg) s with opr_mode := strncpy s.opr_mode optarg 9 } := by
  have h9 : ¬ strlen optarg ≥ 9 := by omega
  simp [parseargs_case, ha, ho, h9]

theorem parseargs_case_p (r : GetoptRet) (optarg : CStr) (s : State)
    (ha : r.arg = 'p') (ho : r.optarg = some optarg) (hl : strlen optarg ≤ 7) :
    parseargs_case r s = .returned
      { debug "p" (some optarg) s with pwr_mode := strncpy s.pwr_mode optarg 8 } := by
  have h9 : ¬ strlen optarg ≥ 8 := by omega
  simp [parseargs_case, ha, ho, h9]

theorem parseargs_single (posix : Bool) (argv0 o optarg : CStr) (r : GetoptRet) (s s1 : State)
    (hg : getopt_results posix [argv0, o, optarg] = [r])
    (hc : parseargs_case r s = .returned s1) :
    parseargs posix [argv0, o, optarg] s = .returned s1 := by
  simp [parseargs, hg, parseargs_loop, hc]

/-- C1: a `-m` argument of at most 8 characters and a `-p` argument of at
most 7 characters are accepted and stored. With `mode` the `-m` argument and
`power` the `-p` argument, from any state whose `opr_mode` and `pwr_mode` are
the 9 and 8 character arrays: `parseargs` returns on `argv0 -m mode` and on
`argv0 -p power`, and afterwards `opr_mode` (`pwr_mode`) is still 9 (8)
characters long, holds the string of the argument unchanged, and has a NUL
right after it; the same holds for the `switch` case wherever `getopt`
reports the option in a longer argument vector. Each of the 13 documented
operational mode names and 3 documented power mode names is such an
argument, free of NUL. -/
theorem parseargs_stores_mode_names (posix : Bool) (argv0 mode power : CStr) (s : State)
    (hm : s.opr_mode.length = 9) (hp : s.pwr_mode.length = 8)
    (hml : strlen mode ≤ 8) (hpl : strlen power ≤ 7) :
    (∃ s1, parseargs posix [argv0, "-m".toList, mode] s = .returned s1 ∧
      s1.opr_mode.length = 9 ∧ c_str s1.opr_mode = c_str mode ∧
      s1.opr_mode.get? (strlen mode) = some NUL) ∧
    (∃ s1, parseargs posix [argv0, "-p".toList, power] s = .returned s1 ∧
      s1.pwr_mode.length = 8 ∧ c_str s1.pwr_mode = c_str power ∧
      s1.pwr_mode.get? (strlen power) = some NUL) ∧
    (∀ r : GetoptRet, r.arg = 'm' → r.optarg = some mode →
      ∃ s1, parseargs_case r s = .returned s1 ∧
        s1.opr_mode.length = 9 ∧ c_str s1.opr_mode = c_str mode ∧
        s1.opr_mode.get? (strlen mode) = some NUL) ∧
    (∀ r : GetoptRet, r.arg = 'p' → r.optarg = some power →
      ∃ s1, parseargs_case r s = .returned s1 ∧
        s1.pwr_mode.length = 8 ∧ c_str s1.pwr_mode = c_str power ∧
        s1.pwr_mode.get? (strlen power) = some NUL) ∧
    (∀ name ∈ opr_mode_names,
      strlen name.toList ≤ 8 ∧ c_str name.toList = name.toList) ∧
    (∀ name ∈ pwr_mode_names,
      strlen name.toList ≤ 7 ∧ c_str name.toList = name.toList) := by
  have hml1 : strlen (c_str mode) ≤ 8 := by unfold strlen; rw [c_str_idem]; exact hml
  have hpl1 : strlen (c_str power) ≤ 7 := by unfold strlen; rw [c_str_idem]; exact hpl
  have hsm : strlen (c_str mode) = strlen mode := by unfold strlen; rw [c_str_idem]
  have hsp : strlen (c_str power) = strlen power := by unfold strlen; rw [c_str_idem]
  refine ⟨⟨_, parseargs_single posix argv0 _ mode _ s _ (getopt_results_m posix argv0 mode)
      (parseargs_case_m _ (c_str mode) s rfl rfl hml1), ?_, ?_, ?_⟩,
    ⟨_, parseargs_single posix argv0 _ power _ s _ (getopt_results_p posix argv0 power)
      (parseargs_case_p _ (c_str power) s rfl rfl hpl1), ?_, ?_, ?_⟩,
    fun r ha ho => ⟨_, parseargs_case_m r mode s ha ho hml, ?_, ?_, ?_⟩,
    fun r ha ho => ⟨_, parseargs_case_p r power s ha ho hpl, ?_, ?_, ?_⟩, ?_, ?_⟩
  · exact strncpy_length _ _ 9 hm
  · show c_str (strncpy s.opr_mode (c_str mode) 9) = c_str mode
    rw [c_str_strncpy _ _ 9 (by omega), c_str_idem]
  · show (strncpy s.opr_mode (c_str mode) 9).get? (strlen mode) = some NUL
    rw [← hsm]; exact strncpy_terminated _ _ 9 (by omega)
  · exact strncpy_length _ _ 8 hp
  · show c_str (strncpy s.pwr_mode (c_str power) 8) = c_str power
    rw [c_str_strncpy _ _ 8 (by omega), c_str_idem]
  · show (strncpy s.pwr_mode (c_str power) 8).get? (strlen power) = some NUL
    rw [← hsp]; exact strncpy_terminated _ _ 8 (by omega)
  · exact strncpy_length _ _ 9 hm
  · exact c_str_strncpy _ _ 9 (by omega)
  · exact strncpy_terminated _ _ 9 (by omega)
  · exact strncpy_length _ _ 8 hp
  · exact c_str_strncpy _ _ 8 (by omega)
  · exact strncpy_terminated _ _ 8 (by omega)
  · decide
  · decide

/-- C1 at `getbno055 -m ndof_fmc` and `getbno055 -p suspend`, the longest
documented names, from the initial state. -/
theorem parseargs_stores_mode_names_witness :
    (∃ s1, parseargs false ["getbno055".toList, "-m".toList, "ndof_fmc".toList]
        (State.init "/dev/i2c-1".toList) = .returned s1 ∧
      c_str s1.opr_mode = "ndof_fmc".toList) ∧
    (∃ s1, parseargs false ["getbno055".toList, "-p".toList, "suspend".toList]
        (State.init "/dev/i2c-1".toList) = .returned s1 ∧
      c_str s1.pwr_mode = "suspend".toList) := by
  have h := parseargs_stores_mode_names false "getbno055".toList "ndof_fmc".toList
    "suspend".toList (State.init "/dev/i2c-1".toList) (by decide) (by decide)
    (by decide) (by decide)
  obtain ⟨⟨s1, h1, _, h2, _⟩, ⟨s2, h3, _, h4, _⟩, _⟩ := h
  exact ⟨⟨s1, h1, h2.trans (by decide)⟩, ⟨s2, h3, h4.trans (by decide)⟩⟩

/-! ## The results of `getopt` are well formed -/

theorem strchr_optstring (c : Char) (hc : ¬ (strchr optstring c = none ∨ c = ':' ∨ c = ';')) :
    (((strchr optstring c).getD []).get? 1 = some ':' →
      ((strchr optstring c).getD []).get? 2 ≠ some ':' ∧ c ∈ arg_letters) ∧
    (((strchr optstring c).getD []).get? 1 ≠ some ':' → c ∉ arg_letters ∧ c ≠ '?') := by
  rcases arg_cases c with hx | hx | hx | hx | hx | hx | hx | hx | hx | hx | hx | hx | hx | hx
  any_goals (subst hx; decide)
  · subst hx; exact absurd (Or.inl (by decide)) hc
  · obtain ⟨h1, h2, h3, h4, h5, h6, h7, h8, h9, h10, h11, h12, h13⟩ := hx
    have hc1 : ¬ c = ':' := fun e => hc (Or.inr (Or.inl e))
    refine absurd (Or.inl ?_) hc
    simp [strchr, optstring, List.dropWhile_cons, Ne.symm h1, Ne.symm h2, Ne.symm h3,
      Ne.symm h4, Ne.symm h5, Ne.symm h6, Ne.symm h7, Ne.symm h8, Ne.symm h9, Ne.symm h10,
      Ne.symm h11, Ne.symm h12, Ne.symm hc1]

theorem getopt_cluster_wf (next : Option CStr) (cs : CStr) :
    ∀ optopt, ∀ r ∈ (getopt_cluster next optopt cs).1, r.wf := by
  induction cs with
  | nil => intro optopt r hr; simp [getopt_cluster] at hr
  | cons c cs ih =>
    intro optopt r hr
    unfold getopt_cluster at hr
    dsimp only at hr
    by_cases hc : strchr optstring c = none ∨ c = ':' ∨ c = ';'
    · rw [if_pos hc] at hr
      simp only [List.mem_cons] at hr
      rcases hr with rfl | hr
      · intro h; revert h; simp [arg_letters]
      · exact ih _ r hr
    · rw [if_neg hc] at hr
      have hso := strchr_optstring c hc
      by_cases h1 : ((strchr optstring c).getD []).get? 1 = some ':'
      · rw [if_pos h1, if_neg (hso.1 h1).1] at hr
        by_cases hcs : cs ≠ []
        · rw [if_pos hcs] at hr
          simp only [List.mem_singleton] at hr
          subst hr; intro _; simp
        · rw [if_neg hcs] at hr
          cases next with
          | none =>
            simp only [List.mem_singleton] at hr
            subst hr; intro h; revert h; simp [arg_letters]
          | some a =>
            simp only [List.mem_singleton] at hr
            subst hr; intro _; simp
      · rw [if_neg h1] at hr
        simp only [List.mem_cons] at hr
        rcases hr with rfl | hr
        · intro h; exact absurd h (hso.2 h1).1
        · exact ih _ r hr

theorem getopt_scan_wf (posix : Bool) (n : Nat) :
    ∀ (args : List CStr) (optopt : Char), args.length ≤ n →
      ∀ r ∈ getopt_scan posix optopt args, r.wf := by
  induction n with
  | zero =>
    intro args optopt hn r hr
    have : args = [] := List.length_eq_zero.mp (Nat.le_zero.mp hn)
    subst this
    simp [getopt_scan] at hr
  | succ n ih =>
    intro args optopt hn r hr
    cases args with
    | nil => simp [getopt_scan] at hr
    | cons a rest =>
      have hrest : rest.length ≤ n := by simpa using hn
      unfold getopt_scan at hr
      split_ifs at hr with h1 h2 h3
      · simp at hr
      · simp at hr
      · exact ih rest optopt hrest r hr
      · cases rest with
        | nil => exact getopt_cluster_wf _ _ _ r hr
        | cons b rest1 =>
          dsimp only at hr
          rw [List.mem_append] at hr
          rcases hr with hr | hr
          · exact getopt_cluster_wf _ _ _ r hr
          · split_ifs at hr
            · exact ih rest1 _ (by simp at hrest; omega) r hr
            · exact ih (b :: rest1) _ hrest r hr

theorem getopt_results_wf (posix : Bool) (argv : List CStr) :
    ∀ r ∈ getopt_results posix argv, r.wf :=
  getopt_scan_wf posix _ _ _ (le_refl _)

/-! ## The loop of `parseargs` -/

theorem parseargs_case_returned (r : GetoptRet) (s s1 : State) (hwf : r.wf)
    (h : parseargs_case r s = .returned s1) :
    validation_failure r = false ∧ r.arg ≠ 'h' ∧ s1.calls = s.calls ∧
    s1.senaddr = (if r.arg = 'a' then strncpy s.senaddr (r.optarg.getD []) 256
      else s.senaddr) ∧
    s1.argflag = action_code r.arg s.argflag ∧
    s1.calfile = (if r.arg = 'l' ∨ r.arg = 'w' then
      strncpy s.calfile (r.optarg.getD []) 256 else s.calfile) ∧
    s1.outflag = (if r.arg = 'o' then 1 else s.outflag) := by
  rcases parseargs_case_spec r s hwf with ⟨_, s2, h2, _⟩ | ⟨_, _, h2⟩ | ⟨hv, hh, s2, h2, hrest⟩
  · rw [h2] at h; cases h
  · rw [h2] at h; cases h
  · rw [h2] at h
    injection h with h
    subst h
    exact ⟨hv, hh, hrest⟩

theorem parseargs_loop_append (pre post : List GetoptRet) :
    ∀ s s1, parseargs_loop (pre ++ post) s = .returned s1 ↔
      ∃ s2, parseargs_loop pre s = .returned s2 ∧ parseargs_loop post s2 = .returned s1 := by
  induction pre with
  | nil =>
    intro s s1
    simp [parseargs_loop]
  | cons r pre ih =>
    intro s s1
    rw [List.cons_append, parseargs_loop, parseargs_loop]
    cases hc : parseargs_case r s with
    | returned s2 => exact ih s2 s1
    | exited code s2 => simp
    | fault s2 => simp

theorem parseargs_loop_frame (α : Type) (f : State → α) (P : Char → Prop)
    (hframe : ∀ r s s1, GetoptRet.wf r → parseargs_case r s = .returned s1 →
      ¬ P r.arg → f s1 = f s)
    (rs : List GetoptRet) :
    ∀ s s1, (∀ r ∈ rs, r.wf) → parseargs_loop rs s = .returned s1 →
      (∀ r ∈ rs, ¬ P r.arg) → f s1 = f s := by
  induction rs with
  | nil =>
    intro s s1 _ h _
    rw [parseargs_loop] at h
    injection h with h
    rw [h]
  | cons r rs ih =>
    intro s s1 hwf h hP
    rw [parseargs_loop] at h
    cases hc : parseargs_case r s with
    | returned s2 =>
      rw [hc] at h
      have h1 := hframe r s s2 (hwf r (List.mem_cons_self _ _)) hc
        (hP r (List.mem_cons_self _ _))
      have h2 := ih s2 s1 (fun r' hr' => hwf r' (List.mem_cons_of_mem _ hr')) h
        (fun r' hr' => hP r' (List.mem_cons_of_mem _ hr'))
      rw [h2, h1]
    | exited code s2 => rw [hc] at h; cases h
    | fault s2 => rw [hc] at h; cases h

/-- How the loop of `parseargs` ends on well-formed results of `getopt`:
either every result is free of validation failures and is not `-h`, and the
loop returns; or there is a first result that is a validation failure or
`-h`, and the program ends there through `exit(-1)`, respectively `exit(0)`.
No library function is called. -/
theorem parseargs_loop_spec (rs : List GetoptRet) :
    ∀ s, (∀ r ∈ rs, r.wf) →
      (∃ s1, parseargs_loop rs s = .returned s1 ∧ s1.calls = s.calls ∧
        ∀ r ∈ rs, validation_failure r = false ∧ r.arg ≠ 'h') ∨
      (∃ pre r post s1, rs = pre ++ r :: post ∧ s1.calls = s.calls ∧
        (∀ q ∈ pre, validation_failure q = false ∧ q.arg ≠ 'h') ∧
        ((validation_failure r = true ∧ parseargs_loop rs s = .exited (-1) s1) ∨
         (validation_failure r = false ∧ r.arg = 'h' ∧
           parseargs_loop rs s = .exited 0 s1))) := by
  induction rs with
  | nil =>
    intro s _
    exact Or.inl ⟨s, rfl, rfl, fun r hr => absurd hr (List.not_mem_nil r)⟩
  | cons r rs ih =>
    intro s hwf
    have hwf1 : ∀ q ∈ rs, q.wf := fun q hq => hwf q (List.mem_cons_of_mem _ hq)
    rcases parseargs_case_spec r s (hwf r (List.mem_cons_self _ _)) with
      ⟨hv, s2, h2, hcalls⟩ | ⟨hv, hh, h2⟩ | ⟨hv, hh, s2, h2, hcalls, _⟩
    · refine Or.inr ⟨[], r, rs, s2, rfl, hcalls, fun q hq => absurd hq (List.not_mem_nil q),
        Or.inl ⟨hv, ?_⟩⟩
      rw [parseargs_loop, h2]
    · refine Or.inr ⟨[], r, rs, usage s, rfl, rfl, fun q hq => absurd hq (List.not_mem_nil q),
        Or.inr ⟨hv, hh, ?_⟩⟩
      rw [parseargs_loop, h2]
    · have hstep : parseargs_loop (r :: rs) s = parseargs_loop rs s2 := by
        rw [parseargs_loop, h2]
      rcases ih s2 hwf1 with ⟨s1, h1, hc1, hall⟩ | ⟨pre, q, post, s1, hrs, hc1, hpre, hq⟩
      · refine Or.inl ⟨s1, by rw [hstep, h1], hc1.trans hcalls, ?_⟩
        intro q hq
        rcases List.mem_cons.mp hq with rfl | hq
        · exact ⟨hv, hh⟩
        · exact hall q hq
      · refine Or.inr ⟨r :: pre, q, post, s1, by rw [hrs, List.cons_append],
          hc1.trans hcalls, ?_, ?_⟩
        · intro q1 hq1
          rcases List.mem_cons.mp hq1 with rfl | hq1
          · exact ⟨hv, hh⟩
          · exact hpre q1 hq1
        · rw [hstep]
          exact hq

theorem exit_status_neg_one : exit_status (-1) = 255 := by decide

/-! ## C2: what `parseargs` rejects -/

/-- C2 fails as stated: `getbno055 -m foo -p bar` carries a `-m` string that
is none of the 13 documented operational mode names and a `-p` string that is
none of the 3 documented power mode names, and `parseargs` returns, with
`foo` in `opr_mode` and `bar` in `pwr_mode`. -/
theorem parseargs_accepts_undocumented_names :
    "foo" ∉ opr_mode_names ∧ "bar" ∉ pwr_mode_names ∧
    parseargs false
      ["getbno055".toList, "-m".toList, "foo".toList, "-p".toList, "bar".toList]
      (State.init "/dev/i2c-1".toList) =
    .returned { State.init "/dev/i2c-1".toList with
      opr_mode := char_array 9 "foo".toList, pwr_mode := char_array 8 "bar".toList } := by
  refine ⟨by decide, by decide, ?_⟩
  decide

/-- C2 (amended): `parseargs` rejects a mode name by its length, not by the
documented names. For every argument vector in which `getopt` reports a `-m`
option with an argument of 9 or more characters, or a `-p` option with an
argument of 8 or more characters, `parseargs` does not return: the program
ends inside it through `exit`, no library function has been called, and the
exit status is 255 unless a `-h` option reported earlier than that option has
already ended the program with status 0. A `-m` argument of at most 8
characters and a `-p` argument of at most 7 characters is accepted and
stored by its case, whether or not it is a documented name. -/
theorem parseargs_rejects_long_mode_names (posix : Bool) (argv : List CStr) (s : State)
    (r : GetoptRet) (a : CStr) (hr : r ∈ getopt_results posix argv)
    (ha : r.optarg = some a)
    (hlen : (r.arg = 'm' ∧ 9 ≤ strlen a) ∨ (r.arg = 'p' ∧ 8 ≤ strlen a)) :
    (∃ code s1, parseargs posix argv s = .exited code s1 ∧ s1.calls = s.calls ∧
      ((code = -1 ∧ exit_status code = 255 ∧ exit_status code ≠ 0) ∨
       (code = 0 ∧ ∃ pre q post, getopt_results posix argv = pre ++ q :: post ∧
          q.arg = 'h' ∧ r ∈ post))) ∧
    (∀ (q : GetoptRet) (b : CStr) (s0 : State), q.optarg = some b →
      (q.arg = 'm' → strlen b ≤ 8 →
        ∃ s2, parseargs_case q s0 = .returned s2 ∧ c_str s2.opr_mode = c_str b) ∧
      (q.arg = 'p' → strlen b ≤ 7 →
        ∃ s2, parseargs_case q s0 = .returned s2 ∧ c_str s2.pwr_mode = c_str b)) := by
  have hv : validation_failure r = true := by
    unfold validation_failure
    rcases hlen with ⟨hm, hl⟩ | ⟨hp, hl⟩
    · simp [hm, ha, hl]
    · simp [hp, ha, hl]
  constructor
  · unfold parseargs
    by_cases h1 : argv.length = 1
    · rw [if_pos h1]
      exact ⟨-1, usage s, rfl, rfl, Or.inl ⟨rfl, exit_status_neg_one, by decide⟩⟩
    · rw [if_neg h1]
      rcases parseargs_loop_spec (getopt_results posix argv) s
          (getopt_results_wf posix argv) with
        ⟨s1, _, _, hall⟩ | ⟨pre, q, post, s1, hrs, hc, hpre, hq⟩
      · have := (hall r hr).1
        rw [hv] at this
        cases this
      · rcases hq with ⟨_, hq⟩ | ⟨hvq, hh, hq⟩
        · exact ⟨-1, s1, hq, hc, Or.inl ⟨rfl, exit_status_neg_one, by decide⟩⟩
        · refine ⟨0, s1, hq, hc, Or.inr ⟨rfl, pre, q, post, hrs, hh, ?_⟩⟩
          rw [hrs] at hr
          rcases List.mem_append.mp hr with hin | hin
          · have := (hpre r hin).1
            rw [hv] at this
            cases this
          · rcases List.mem_cons.mp hin with heq | hin
            · rw [heq, hvq] at hv
              cases hv
            · exact hin
  · intro q b s0 hb
    constructor
    · intro hm hl
      exact ⟨_, parseargs_case_m q b s0 hm hb hl, c_str_strncpy _ _ 9 (by omega)⟩
    · intro hp hl
      exact ⟨_, parseargs_case_p q b s0 hp hb hl, c_str_strncpy _ _ 8 (by omega)⟩

/-- C2 (amended) at `getbno055 -m ndof_fmc_x -h`: the over-long `-m` argument
comes first, no `-h` precedes it, and the program ends inside `parseargs`
through `exit(-1)`, exit status 255. -/
theorem parseargs_rejects_long_mode_names_witness :
    ∃ s1, parseargs false
        ["getbno055".toList, "-m".toList, "ndof_fmc_x".toList, "-h".toList]
        (State.init "/dev/i2c-1".toList) = .exited (-1) s1 ∧
      s1.calls = [] ∧ exit_status (-1) = 255 := by
  obtain ⟨code, s1, h1, h2, h3⟩ := (parseargs_rejects_long_mode_names false
    ["getbno055".toList, "-m".toList, "ndof_fmc_x".toList, "-h".toList]
    (State.init "/dev/i2c-1".toList) ⟨'m', some "ndof_fmc_x".toList, '?'⟩
    "ndof_fmc_x".toList (by decide) rfl (Or.inl ⟨rfl, by decide⟩)).1
  rcases h3 with ⟨hc, h255, _⟩ | ⟨_, pre, q, post, hrs, hh, hpost⟩
  · subst hc
    exact ⟨s1, h1, h2, h255⟩
  · exfalso
    have hres : getopt_results false
        ["getbno055".toList, "-m".toList, "ndof_fmc_x".toList, "-h".toList] =
        [⟨'m', some "ndof_fmc_x".toList, '?'⟩, ⟨'h', none, '?'⟩] := by decide
    rw [hres] at hrs
    have hlen := congrArg List.length hrs
    simp only [List.length_cons, List.length_nil, List.length_append] at hlen
    have hpl : 0 < post.length := List.length_pos_of_mem hpost
    have hpre : pre = [] ∨ pre.length = 1 := by
      rcases pre with _ | ⟨x, pre1⟩
      · exact Or.inl rfl
      · right
        simp only [List.length_cons] at hlen ⊢
        omega
    rcases hpre with rfl | hp1
    · simp only [List.nil_append, List.cons.injEq] at hrs
      rw [← hrs.1] at hh
      exact absurd hh (by decide)
    · omega

/-! ## C3: exit status of `parseargs` -/

/-- C3: whenever `parseargs` ends the program, either it does so through
`exit(-1)`, exit status 255, because there is no argument at all
(`argc == 1`) or at the first result of `getopt` that is a validation failure,
every earlier one being valid and not `-h`; or it does so through `exit(0)`
at a `-h` option, every earlier option being valid. Each validation failure
ends the program through `exit(-1)` in whatever state its case is reached. -/
theorem parseargs_exit_status (posix : Bool) (argv : List CStr) (s s1 : State) (code : Int)
    (h : parseargs posix argv s = .exited code s1) :
    ((code = -1 ∧ exit_status code = 255 ∧ exit_status code ≠ 0 ∧
        (argv.length = 1 ∨
         ∃ pre r post, getopt_results posix argv = pre ++ r :: post ∧
           (∀ q ∈ pre, validation_failure q = false ∧ q.arg ≠ 'h') ∧
           validation_failure r = true)) ∨
     (code = 0 ∧
        ∃ pre r post, getopt_results posix argv = pre ++ r :: post ∧
          (∀ q ∈ pre, validation_failure q = false ∧ q.arg ≠ 'h') ∧ r.arg = 'h')) ∧
    (∀ (r : GetoptRet) (s0 : State), r.wf → validation_failure r = true →
      ∃ s2, parseargs_case r s0 = .exited (-1) s2) := by
  constructor
  · unfold parseargs at h
    by_cases h1 : argv.length = 1
    · rw [if_pos h1] at h
      injection h with hcode _
      subst hcode
      exact Or.inl ⟨rfl, exit_status_neg_one, by decide, Or.inl h1⟩
    · rw [if_neg h1] at h
      rcases parseargs_loop_spec (getopt_results posix argv) s (getopt_results_wf posix argv)
        with ⟨s2, h2, _, _⟩ | ⟨pre, q, post, s2, hrs, _, hpre, hq⟩
      · rw [h2] at h; cases h
      · rcases hq with ⟨hv, hq⟩ | ⟨_, hh, hq⟩
        · rw [hq] at h
          injection h with hcode _
          subst hcode
          exact Or.inl ⟨rfl, exit_status_neg_one, by decide, Or.inr ⟨pre, q, post, hrs, hpre, hv⟩⟩
        · rw [hq] at h
          injection h with hcode _
          subst hcode
          exact Or.inr ⟨rfl, pre, q, post, hrs, hpre, hh⟩
  · intro r s0 hwf hv
    rcases parseargs_case_spec r s0 hwf with ⟨_, s2, h2, _⟩ | ⟨hv2, _, _⟩ | ⟨hv2, _, _⟩
    · exact ⟨s2, h2⟩
    · rw [hv] at hv2; cases hv2
    · rw [hv] at hv2; cases hv2

/-- C3 at `getbno055 -a 0x2` (address of length 3): exit status 255; the
first alternative holds. -/
theorem parseargs_exit_status_witness :
    exit_status (-1) = 255 ∧
    ∃ s1, parseargs false ["getbno055".toList, "-a".toList, "0x2".toList]
      (State.init "/dev/i2c-1".toList) = .exited (-1) s1 := by
  have h0 : parseargs false ["getbno055".toList, "-a".toList, "0x2".toList]
      (State.init "/dev/i2c-1".toList) = .exited (-1)
      ((State.init "/dev/i2c-1".toList).printf
        "Error: Cannot get valid -a sensor address argument.\n") := by decide
  have h := parseargs_exit_status false _ _ _ _ h0
  rcases h.1 with ⟨_, h2, _⟩ | ⟨h2, _⟩
  · exact ⟨h2, _, h0⟩
  · exact absurd h2 (by decide)

/-! ## C8 and C10: the globals after `parseargs` returns -/

theorem parseargs_returned_loop (posix : Bool) (argv : List CStr) (s s1 : State)
    (h : parseargs posix argv s = .returned s1) :
    parseargs_loop (getopt_results posix argv) s = .returned s1 := by
  unfold parseargs at h
  by_cases h1 : argv.length = 1
  · rw [if_pos h1] at h; cases h
  · rw [if_neg h1] at h; exact h

theorem parseargs_loop_last (α : Type) (f : State → α) (P : Char → Prop)
    (hframe : ∀ r s s1, GetoptRet.wf r → parseargs_case r s = .returned s1 →
      ¬ P r.arg → f s1 = f s)
    (pre post : List GetoptRet) (r : GetoptRet) (s s1 : State)
    (hwf : ∀ q ∈ pre ++ r :: post, q.wf)
    (h : parseargs_loop (pre ++ r :: post) s = .returned s1)
    (hpost : ∀ q ∈ post, ¬ P q.arg) :
    ∃ s2 s3, parseargs_loop pre s = .returned s2 ∧
      parseargs_case r s2 = .returned s3 ∧ f s1 = f s3 := by
  obtain ⟨s2, h2, h3⟩ := (parseargs_loop_append pre (r :: post) s s1).mp h
  rw [parseargs_loop] at h3
  cases hc : parseargs_case r s2 with
  | returned s3 =>
    rw [hc] at h3
    refine ⟨s2, s3, h2, hc, ?_⟩
    exact parseargs_loop_frame α f P hframe post s3 s1
      (fun q hq => hwf q (by simp [hq])) h3 hpost
  | exited code s3 => rw [hc] at h3; cases h3
  | fault s3 => rw [hc] at h3; cases h3

theorem frame_senaddr (r : GetoptRet) (s s1 : State) (hwf : r.wf)
    (h : parseargs_case r s = .returned s1) (hP : ¬ r.arg = 'a') :
    s1.senaddr = s.senaddr := by
  have := (parseargs_case_returned r s s1 hwf h).2.2.2.1
  rw [if_neg hP] at this
  exact this

theorem frame_argflag (r : GetoptRet) (s s1 : State) (hwf : r.wf)
    (h : parseargs_case r s = .returned s1) (hP : ¬ r.arg ∈ ['d', 'r', 'l', 'w']) :
    s1.argflag = s.argflag := by
  have := (parseargs_case_returned r s s1 hwf h).2.2.2.2.1
  simp only [List.mem_cons, List.mem_singleton, not_or, List.mem_nil_iff, or_false] at hP
  rw [action_code, if_neg hP.1, if_neg hP.2.1, if_neg hP.2.2.1, if_neg hP.2.2.2] at this
  exact this

theorem frame_calfile (r : GetoptRet) (s s1 : State) (hwf : r.wf)
    (h : parseargs_case r s = .returned s1) (hP : ¬ (r.arg = 'l' ∨ r.arg = 'w')) :
    s1.calfile = s.calfile := by
  have := (parseargs_case_returned r s s1 hwf h).2.2.2.2.2.1
  rw [if_neg hP] at this
  exact this

theorem frame_outflag (r : GetoptRet) (s s1 : State) (hwf : r.wf)
    (h : parseargs_case r s = .returned s1) (hP : ¬ r.arg = 'o') :
    s1.outflag = s.outflag := by
  have := (parseargs_case_returned r s s1 hwf h).2.2.2.2.2.2
  rw [if_neg hP] at this
  exact this

theorem validation_failure_optarg (r : GetoptRet) (hwf : r.wf)
    (hv : validation_failure r = false) :
    (r.arg = 'a' → ∃ a, r.optarg = some a ∧ strlen a = 4) ∧
    ((r.arg = 'l' ∨ r.arg = 'w') → ∃ a, r.optarg = some a ∧ strlen a < 256) := by
  unfold GetoptRet.wf arg_letters at hwf
  unfold validation_failure at hv
  constructor
  · intro hx
    have hw := hwf (by rw [hx]; decide)
    rw [hx] at hv
    generalize r.optarg = o at hw hv
    cases o with
    | none => exact absurd rfl hw
    | some a => exact ⟨a, rfl, by simpa using hv⟩
  · intro hx
    rcases hx with hx | hx
    · have hw := hwf (by rw [hx]; decide)
      rw [hx] at hv
      generalize r.optarg = o at hw hv
      cases o with
      | none => exact absurd rfl hw
      | some a => exact ⟨a, rfl, by simpa using hv⟩
    · have hw := hwf (by rw [hx]; decide)
      rw [hx] at hv
      generalize r.optarg = o at hw hv
      cases o with
      | none => exact absurd rfl hw
      | some a => exact ⟨a, rfl, by simpa using hv⟩

/-- C8: when `parseargs` returns, started from the initial globals: without
a `-a` option among the options `getopt` reports, `senaddr` is unchanged and
holds the default `0x28`; every `-a` option has an argument of length exactly
4; `senaddr` holds the argument of the last `-a` option; and a case of the
`switch` for another option leaves `senaddr` as it is. -/
theorem parseargs_senaddr (posix : Bool) (I2CBUS : CStr) (argv : List CStr)
    (s1 : State) (h : parseargs posix argv (State.init I2CBUS) = .returned s1) :
    ((∀ r ∈ getopt_results posix argv, r.arg ≠ 'a') →
      s1.senaddr = (State.init I2CBUS).senaddr ∧ c_str s1.senaddr = "0x28".toList) ∧
    (∀ r ∈ getopt_results posix argv, r.arg = 'a' →
      ∃ a, r.optarg = some a ∧ strlen a = 4) ∧
    (∀ pre r post a, getopt_results posix argv = pre ++ r :: post → r.arg = 'a' →
      r.optarg = some a → (∀ q ∈ post, q.arg ≠ 'a') →
      c_str s1.senaddr = c_str a ∧ strlen s1.senaddr = 4) ∧
    (∀ (r : GetoptRet) (s0 s2 : State), r.wf → r.arg ≠ 'a' →
      parseargs_case r s0 = .returned s2 → s2.senaddr = s0.senaddr) := by
  have hl := parseargs_returned_loop posix argv _ s1 h
  have hwf := getopt_results_wf posix argv
  refine ⟨?_, ?_, ?_, ?_⟩
  · intro hno
    have := parseargs_loop_frame CStr State.senaddr (fun c => c = 'a') frame_senaddr
      _ _ s1 hwf hl hno
    exact ⟨this, by
      rw [this]
      exact (by decide : c_str (char_array 256 "0x28".toList) = "0x28".toList)⟩
  · intro r hr hx
    rcases parseargs_loop_spec _ (State.init I2CBUS) hwf with
      ⟨s2, _, _, hall⟩ | ⟨_, _, _, s2, _, _, _, hq⟩
    · exact (validation_failure_optarg r (hwf r hr) (hall r hr).1).1 hx
    · rcases hq with ⟨_, hq⟩ | ⟨_, _, hq⟩ <;> (rw [hq] at hl; cases hl)
  · intro pre r post a hrs hx ha hpost
    rw [hrs] at hl hwf
    obtain ⟨s2, s3, _, h3, h4⟩ := parseargs_loop_last CStr State.senaddr (fun c => c = 'a')
      frame_senaddr pre post r _ s1 hwf hl hpost
    have hr := hwf r (by simp)
    have hc := parseargs_case_returned r s2 s3 hr h3
    have h5 := hc.2.2.2.1
    rw [if_pos hx, ha] at h5
    obtain ⟨a1, ha1, hlen⟩ := (validation_failure_optarg r hr hc.1).1 hx
    rw [ha] at ha1
    injection ha1 with ha1
    subst ha1
    have h6 : c_str s1.senaddr = c_str a := by
      rw [h4, h5]
      exact c_str_strncpy _ _ 256 (by simp only [Option.getD_some]; omega)
    exact ⟨h6, by unfold strlen at hlen ⊢; rw [h6]; exact hlen⟩
  · intro r s0 s2 hr hx hc
    exact frame_senaddr r s0 s2 hr hc hx

/-- C8 at `getbno055 -a 0x28 -v -a 0x29`: `parseargs` returns and `senaddr`
holds `0x29`, the argument of the last `-a` option. -/
theorem parseargs_senaddr_witness :
    ∃ s1, parseargs false
        ["getbno055".toList, "-a".toList, "0x28".toList, "-v".toList, "-a".toList,
          "0x29".toList] (State.init "/dev/i2c-1".toList) = .returned s1 ∧
      c_str s1.senaddr = c_str "0x29".toList ∧ strlen s1.senaddr = 4 := by
  have h0 : parseargs false
      ["getbno055".toList, "-a".toList, "0x28".toList, "-v".toList, "-a".toList,
        "0x29".toList] (State.init "/dev/i2c-1".toList) =
      .returned { State.init "/dev/i2c-1".toList with
        verbose := 1, senaddr := char_array 256 "0x29".toList,
        stdout := "Debug: arg -a, value 0x29\n" } := by decide
  exact ⟨_, h0, (parseargs_senaddr false "/dev/i2c-1".toList _ _ h0).2.2.1
    [⟨'a', some "0x28".toList, '?'⟩, ⟨'v', none, '?'⟩] ⟨'a', some "0x29".toList, '?'⟩ []
    "0x29".toList (by decide) rfl rfl (fun q hq => absurd hq (List.not_mem_nil q))⟩

theorem parseargs_loop_outflag (rs : List GetoptRet) :
    ∀ s s1, (∀ r ∈ rs, r.wf) → parseargs_loop rs s = .returned s1 →
      (s1.outflag = 1 ↔ s.outflag = 1 ∨ ∃ r ∈ rs, r.arg = 'o') := by
  induction rs with
  | nil =>
    intro s s1 _ h
    rw [parseargs_loop] at h
    injection h with h
    subst h
    simp
  | cons r rs ih =>
    intro s s1 hwf h
    rw [parseargs_loop] at h
    cases hc : parseargs_case r s with
    | returned s2 =>
      rw [hc] at h
      have h1 := (parseargs_case_returned r s s2 (hwf r (List.mem_cons_self _ _)) hc).2.2.2.2.2.2
      have h2 := ih s2 s1 (fun q hq => hwf q (List.mem_cons_of_mem _ hq)) h
      rw [h2, h1]
      by_cases ho : r.arg = 'o'
      · simp [ho]
      · simp [ho]
    | exited code s2 => rw [hc] at h; cases h
    | fault s2 => rw [hc] at h; cases h

/-- C10: when `parseargs` returns, started from the initial globals:
`argflag` is 0 when `getopt` reports none of `-d`, `-r`, `-l`, `-w`, and
otherwise the code of the last of them (`-d` = 1, `-r` = 2, `-l` = 3,
`-w` = 4); `calfile` holds the argument of the last `-l` or `-w` option;
and `outflag` is 1 if and only if an `-o` option is reported. -/
theorem parseargs_flags (posix : Bool) (I2CBUS : CStr) (argv : List CStr)
    (s1 : State) (h : parseargs posix argv (State.init I2CBUS) = .returned s1) :
    ((∀ r ∈ getopt_results posix argv, r.arg ∉ ['d', 'r', 'l', 'w']) → s1.argflag = 0) ∧
    (∀ pre r post, getopt_results posix argv = pre ++ r :: post →
      r.arg ∈ ['d', 'r', 'l', 'w'] → (∀ q ∈ post, q.arg ∉ ['d', 'r', 'l', 'w']) →
      (r.arg = 'd' → s1.argflag = 1) ∧ (r.arg = 'r' → s1.argflag = 2) ∧
      (r.arg = 'l' → s1.argflag = 3) ∧ (r.arg = 'w' → s1.argflag = 4)) ∧
    (∀ pre r post a, getopt_results posix argv = pre ++ r :: post →
      (r.arg = 'l' ∨ r.arg = 'w') → r.optarg = some a →
      (∀ q ∈ post, ¬ (q.arg = 'l' ∨ q.arg = 'w')) →
      c_str s1.calfile = c_str a) ∧
    (s1.outflag = 1 ↔ ∃ r ∈ getopt_results posix argv, r.arg = 'o') := by
  have hl := parseargs_returned_loop posix argv _ s1 h
  have hwf := getopt_results_wf posix argv
  refine ⟨?_, ?_, ?_, ?_⟩
  · intro hno
    exact parseargs_loop_frame Int State.argflag (fun c => c ∈ ['d', 'r', 'l', 'w'])
      frame_argflag _ _ s1 hwf hl hno
  · intro pre r post hrs _ hpost
    rw [hrs] at hl hwf
    obtain ⟨s2, s3, _, h3, h4⟩ := parseargs_loop_last Int State.argflag
      (fun c => c ∈ ['d', 'r', 'l', 'w']) frame_argflag pre post r _ s1 hwf hl hpost
    have h5 := (parseargs_case_returned r s2 s3 (hwf r (by simp)) h3).2.2.2.2.1
    rw [h4, h5]
    refine ⟨?_, ?_, ?_, ?_⟩ <;> intro hx <;> rw [hx] <;> rfl
  · intro pre r post a hrs hx ha hpost
    rw [hrs] at hl hwf
    obtain ⟨s2, s3, _, h3, h4⟩ := parseargs_loop_last CStr State.calfile
      (fun c => c = 'l' ∨ c = 'w') frame_calfile pre post r _ s1 hwf hl hpost
    have hr := hwf r (by simp)
    have hc := parseargs_case_returned r s2 s3 hr h3
    have h5 := hc.2.2.2.2.2.1
    rw [if_pos hx, ha] at h5
    obtain ⟨a1, ha1, hlen⟩ := (validation_failure_optarg r hr hc.1).2 hx
    rw [ha] at ha1
    injection ha1 with ha1
    subst ha1
    rw [h4, h5]
    exact c_str_strncpy _ _ 256 hlen
  · rw [parseargs_loop_outflag _ _ s1 hwf hl]
    constructor
    · rintro (h0 | h0)
      · exact absurd h0 (show ¬ ((0 : Int) = 1) by decide)
      · exact h0
    · exact Or.inr

/-- C10 at `getbno055 -d -w cal -o out -r`: `argflag` is 2, for the last
action option `-r`; `calfile` holds `cal`; `outflag` is 1. -/
theorem parseargs_flags_witness :
    ∃ s1, parseargs false
        ["getbno055".toList, "-d".toList, "-w".toList, "cal".toList, "-o".toList,
          "out".toList, "-r".toList] (State.init "/dev/i2c-1".toList) = .returned s1 ∧
      s1.argflag = 2 ∧ c_str s1.calfile = c_str "cal".toList ∧ s1.outflag = 1 := by
  have h0 : parseargs false
      ["getbno055".toList, "-d".toList, "-w".toList, "cal".toList, "-o".toList,
        "out".toList, "-r".toList] (State.init "/dev/i2c-1".toList) =
      .returned { State.init "/dev/i2c-1".toList with
        argflag := 2, outflag := 1, calfile := char_array 256 "cal".toList,
        htmfile := char_array 256 "out".toList } := by decide
  have h := parseargs_flags false "/dev/i2c-1".toList _ _ h0
  refine ⟨_, h0, ?_, ?_, h.2.2.2.mpr ⟨⟨'o', some "out".toList, '?'⟩, by decide, rfl⟩⟩
  · exact (h.2.1 [⟨'d', none, '?'⟩, ⟨'w', some "cal".toList, '?'⟩,
      ⟨'o', some "out".toList, '?'⟩] ⟨'r', none, '?'⟩ [] (by decide) (by decide)
      (fun q hq => absurd hq (List.not_mem_nil q))).2.1 rfl
  · exact h.2.2.1 [⟨'d', none, '?'⟩] ⟨'w', some "cal".toList, '?'⟩
      [⟨'o', some "out".toList, '?'⟩, ⟨'r', none, '?'⟩] "cal".toList (by decide)
      (Or.inr rfl) rfl (by decide)

/-! ## C4 and C5: `print_calstat` -/

theorem print_calstat_switch_eq (v : Int) (s : State) (h0 : 0 ≤ v) (h3 : v ≤ 3) :
    print_calstat_switch v s = s.printf (cal_text v ++ "\n") := by
  interval_cases v <;> rfl

theorem cal_text_no_newline (v : Int) : '\n' ∉ (cal_text v).toList := by
  unfold cal_text
  split_ifs <;> decide

/-- C4: when `get_calstatus` returns 0 and leaves four fields that each lie
in 0..3, `print_calstat` returns after one `get_calstatus` call, having
printed exactly four lines, in the order system, gyroscope, accelerometer,
magnetometer, each the label of the field followed by the text for its value
under one mapping, 0 "Uncalibrated", 1 "Minimal Calibrated", 2 "Mostly
Calibrated", 3 "Fully calibrated"; the text of a field is "Fully calibrated"
if and only if the field is 3. -/
theorem print_calstat_lines (sen : Sensor) (s : State)
    (hres : (sen.get_calstatus s.calls).1 = 0)
    (hs : 0 ≤ (sen.get_calstatus s.calls).2.scal_st ∧ (sen.get_calstatus s.calls).2.scal_st ≤ 3)
    (hg : 0 ≤ (sen.get_calstatus s.calls).2.gcal_st ∧ (sen.get_calstatus s.calls).2.gcal_st ≤ 3)
    (ha : 0 ≤ (sen.get_calstatus s.calls).2.acal_st ∧ (sen.get_calstatus s.calls).2.acal_st ≤ 3)
    (hm : 0 ≤ (sen.get_calstatus s.calls).2.mcal_st ∧ (sen.get_calstatus s.calls).2.mcal_st ≤ 3) :
    (∃ s1, print_calstat sen s = .returned s1 ∧
      s1.calls = s.calls ++ [Call.get_calstatus] ∧
      s1.stdout = s.stdout ++
        String.join ((calstat_lines (sen.get_calstatus s.calls).2).map (fun l => l ++ "\n"))) ∧
    (calstat_lines (sen.get_calstatus s.calls).2).length = 4 ∧
    (∀ l ∈ calstat_lines (sen.get_calstatus s.calls).2, '\n' ∉ l.toList) ∧
    (∀ v : Int, 0 ≤ v → v ≤ 3 → (cal_text v = "Fully calibrated" ↔ v = 3)) := by
  refine ⟨?_, rfl, ?_, ?_⟩
  · unfold print_calstat
    dsimp only
    rw [if_neg (by rw [hres]; decide)]
    refine ⟨_, rfl, ?_, ?_⟩
    · rw [print_calstat_switch_eq _ _ hm.1 hm.2, print_calstat_switch_eq _ _ ha.1 ha.2,
        print_calstat_switch_eq _ _ hg.1 hg.2, print_calstat_switch_eq _ _ hs.1 hs.2]
      rfl
    · rw [print_calstat_switch_eq _ _ hm.1 hm.2, print_calstat_switch_eq _ _ ha.1 ha.2,
        print_calstat_switch_eq _ _ hg.1 hg.2, print_calstat_switch_eq _ _ hs.1 hs.2]
      simp only [State.printf, calstat_lines, String.join, List.map, List.foldl,
        String.append_assoc, String.empty_append]
  · intro l hl
    simp only [calstat_lines, List.mem_cons, List.mem_singleton, List.mem_nil_iff,
      or_false] at hl
    have hcat : ∀ (a b : String), '\n' ∉ a.toList → '\n' ∉ b.toList →
        '\n' ∉ (a ++ b).toList := by
      intro a b ha hb
      rw [String.toList, String.data_append, List.mem_append]
      exact fun h => h.elim ha hb
    rcases hl with rfl | rfl | rfl | rfl
    · exact hcat _ _ (by decide) (cal_text_no_newline _)
    · exact hcat _ _ (by decide) (cal_text_no_newline _)
    · exact hcat _ _ (by decide) (cal_text_no_newline _)
    · exact hcat _ _ (by decide) (cal_text_no_newline _)
  · intro v h0 h3
    interval_cases v <;> decide

/-- C4 at the status system 3, gyroscope 2, accelerometer 1,
magnetometer 0, from the initial state. -/
theorem print_calstat_lines_witness :
    ∃ s1, print_calstat
        (steady_sensor 0 ⟨3, 2, 1, 0⟩ ⟨0, 0, 0⟩ ⟨0, 0, 0⟩ ⟨0, 0, 0⟩ ⟨0, 0, 0⟩ ⟨0, 0, 0, 0⟩
          ⟨0, 0, 0⟩ ⟨0, 0, 0⟩)
        (State.init "/dev/i2c-1".toList) = .returned s1 ∧
      s1.stdout = "Sensor System Calibration = Fully calibrated\n" ++
        "    Gyroscope Calibration = Mostly Calibrated\n" ++
        "Accelerometer Calibration = Minimal Calibrated\n" ++
        " Magnetometer Calibration = Uncalibrated\n" := by
  obtain ⟨s1, h1, _, h2⟩ := (print_calstat_lines
    (steady_sensor 0 ⟨3, 2, 1, 0⟩ ⟨0, 0, 0⟩ ⟨0, 0, 0⟩ ⟨0, 0, 0⟩ ⟨0, 0, 0⟩ ⟨0, 0, 0, 0⟩
      ⟨0, 0, 0⟩ ⟨0, 0, 0⟩)
    (State.init "/dev/i2c-1".toList) rfl (by decide) (by decide) (by decide) (by decide)).1
  exact ⟨s1, h1, h2.trans (by decide)⟩

/-- C5: when `get_calstatus` returns a value other than 0, `print_calstat`
makes that one `get_calstatus` call and no other, prints the error message
and nothing else, and ends the program through `exit(-1)`, exit status 255;
no calibration status line stands in what it printed. -/
theorem print_calstat_error (sen : Sensor) (s : State)
    (hres : (sen.get_calstatus s.calls).1 ≠ 0) :
    print_calstat sen s = .exited (-1)
      { s with calls := s.calls ++ [Call.get_calstatus],
               stdout := s.stdout ++ "Error: Cannot read calibration state.\n" } ∧
    exit_status (-1) = 255 ∧ exit_status (-1) ≠ 0 ∧
    (s.calls ++ [Call.get_calstatus]).count Call.get_calstatus =
      s.calls.count Call.get_calstatus + 1 ∧
    (∀ bnoc, ∀ l ∈ calstat_lines bnoc,
      ¬ l.toList <:+: "Error: Cannot read calibration state.\n".toList) := by
  refine ⟨?_, by decide, by decide, by simp, ?_⟩
  · unfold print_calstat
    dsimp only
    rw [if_pos hres]
    rfl
  · intro bnoc l hl
    simp only [calstat_lines, List.mem_cons, List.mem_singleton, List.mem_nil_iff,
      or_false] at hl
    have hpre : ∀ (a b : String) (m : List Char), ¬ a.toList <:+: m →
        ¬ (a ++ b).toList <:+: m := by
      intro a b m ha hab
      apply ha
      rw [String.toList, String.data_append] at hab
      obtain ⟨u, v, huv⟩ := hab
      exact ⟨u, b.data ++ v, by rw [← huv]; simp [String.toList]⟩
    rcases hl with rfl | rfl | rfl | rfl
    · exact hpre _ _ _ (by decide)
    · exact hpre _ _ _ (by decide)
    · exact hpre _ _ _ (by decide)
    · exact hpre _ _ _ (by decide)

/-- C5 at a sensor whose `get_calstatus` returns -1, from the initial
state. -/
theorem print_calstat_error_witness :
    print_calstat
      (steady_sensor (-1) ⟨0, 0, 0, 0⟩ ⟨0, 0, 0⟩ ⟨0, 0, 0⟩ ⟨0, 0, 0⟩ ⟨0, 0, 0⟩ ⟨0, 0, 0, 0⟩
        ⟨0, 0, 0⟩ ⟨0, 0, 0⟩)
      (State.init "/dev/i2c-1".toList) =
    .exited (-1) { State.init "/dev/i2c-1".toList with
      calls := [Call.get_calstatus],
      stdout := "Error: Cannot read calibration state.\n" } :=
  (print_calstat_error
    (steady_sensor (-1) ⟨0, 0, 0, 0⟩ ⟨0, 0, 0⟩ ⟨0, 0, 0⟩ ⟨0, 0, 0⟩ ⟨0, 0, 0⟩ ⟨0, 0, 0, 0⟩
      ⟨0, 0, 0⟩ ⟨0, 0, 0⟩)
    (State.init "/dev/i2c-1".toList) (by decide)).1

/-! ## `main.cpp` -/

theorem data_body_block (self : imuSensor) (sen : Sensor) (m : Machine) :
    (self.data_body sen m).1 = m.next_block := rfl

theorem data_body_calls (self : imuSensor) (sen : Sensor) (m : Machine) :
    (self.data_body sen m).2.calls = m.calls ++ data_calls := by
  simp [imuSensor.data_body, Machine.alloc, Machine.store, Machine.call, data_calls]

theorem data_body_writes (self : imuSensor) (sen : Sensor) (m : Machine) :
    (self.data_body sen m).2.writes =
      m.writes ++ (List.range 22).map (fun i => (m.next_block, i)) := by
  simp [imuSensor.data_body, Machine.alloc, Machine.store, Machine.call]
  rfl

theorem data_body_array (self : imuSensor) (sen : Sensor) (m : Machine) :
    (self.data_body sen m).2.array m.next_block =
      some ((readings sen m.calls).map double_to_int) := by
  simp [imuSensor.data_body, Machine.alloc, Machine.store, Machine.call, Machine.array,
    readings, data_calls, List.replicate]

theorem tdiv_num_den (x : ℚ) :
    Int.tdiv x.num (x.den : Int) = if 0 ≤ x then ⌊x⌋ else ⌈x⌉ := by
  by_cases h : 0 ≤ x
  · rw [if_pos h, Rat.floor_def]
    have hn : 0 ≤ x.num := Rat.num_nonneg.mpr h
    exact Int.tdiv_eq_ediv hn (Int.ofNat_nonneg _)
  · rw [if_neg h]
    have hn : x.num < 0 := by
      rw [Rat.num_neg]; exact lt_of_not_le h
    have h1 : ⌈x⌉ = -⌊-x⌋ := by simp [Int.floor_neg]
    rw [h1, Rat.floor_def, Rat.neg_num, Rat.neg_den]
    have h2 : Int.tdiv (-x.num) (x.den : Int) = (-x.num) / (x.den : Int) :=
      Int.tdiv_eq_ediv (by omega) (Int.ofNat_nonneg _)
    rw [← h2, Int.neg_tdiv, neg_neg]

theorem double_to_int_of_int (n : Int) (h0 : INT_MIN ≤ n) (h1 : n ≤ INT_MAX) :
    double_to_int (n : ℚ) = some n := by
  unfold double_to_int
  simp [h0, h1, Int.tdiv_one]

theorem double_to_int_exact (x : ℚ) (v : Int) (h : double_to_int x = some v) :
    ((v : ℚ) = x ↔ x.den = 1) := by
  unfold double_to_int at h
  dsimp only at h
  split_ifs at h
  injection h with h
  constructor
  · intro hx; rw [← hx]; simp
  · intro hd
    rw [← h, hd]
    simp [Int.tdiv_one]
    exact (Rat.den_eq_one_iff x).mp hd

theorem free_array (m : Machine) (b : Nat) : (m.free b).array b = none := by
  unfold Machine.array Machine.free
  simp only [Option.map_eq_none', List.find?_eq_none]
  intro o ho
  have := (List.mem_filter.mp ho).2
  simpa using this

theorem data_array_dead (self : imuSensor) (sen : Sensor) (m : Machine) :
    (self.data sen m).2.array (self.data sen m).1.block = none := by
  unfold imuSensor.data
  exact free_array _ _

theorem data_load_dead (self : imuSensor) (sen : Sensor) (m : Machine) (i : Nat) :
    (self.data sen m).2.load (self.data sen m).1 i = none := by
  unfold Machine.load
  rw [data_array_dead]

theorem data_body_stdout (self : imuSensor) (sen : Sensor) (m : Machine) :
    (self.data_body sen m).2.stdout = m.stdout := by
  simp [imuSensor.data_body, Machine.alloc, Machine.store, Machine.call]

theorem data_calls_eq (self : imuSensor) (sen : Sensor) (m : Machine) :
    (self.data sen m).2.calls = m.calls ++ data_calls := by
  simp only [imuSensor.data, Machine.free]
  exact data_body_calls self sen m

theorem data_writes_eq (self : imuSensor) (sen : Sensor) (m : Machine) :
    (self.data sen m).2.writes =
      m.writes ++ (List.range 22).map (fun i => (m.next_block, i)) := by
  simp only [imuSensor.data, Machine.free]
  exact data_body_writes self sen m

theorem data_stdout_eq (self : imuSensor) (sen : Sensor) (m : Machine) :
    (self.data sen m).2.stdout = m.stdout := by
  simp only [imuSensor.data, Machine.free]
  exact data_body_stdout self sen m

theorem main_undefined (I2CBUS : CStr) (sen : Sensor) (m : Machine) :
    main I2CBUS sen m =
      .undefined ((imuSensor.new I2CBUS m).1.data sen
        ((imuSensor.new I2CBUS m).1.mode opmode_t.ndof_fmc (imuSensor.new I2CBUS m).2)).2 := by
  unfold main
  dsimp only
  rw [main_loop, data_load_dead]

/-! ## C6: the values of the sample -/

/-- C6 fails as stated: with an accelerometer reading of x = 1/2 (raw value
50 at 100 per m/s²), element 0 of the array of `data()` holds 0, not 1/2. -/
theorem data_truncates_half :
    ((imuSensor.data_body (imuSensor.new "/dev/i2c-1".toList Machine.init).1
        (steady_sensor 0 ⟨0, 0, 0, 0⟩ ⟨1 / 2, 0, 0⟩ ⟨0, 0, 0⟩ ⟨0, 0, 0⟩ ⟨0, 0, 0⟩
          ⟨0, 0, 0, 0⟩ ⟨0, 0, 0⟩ ⟨0, 0, 0⟩)
        (imuSensor.new "/dev/i2c-1".toList Machine.init).2).2.array 0).map
      (fun a => a.get? 0) = some (some (some 0)) ∧
    ((0 : Int) : ℚ) ≠ 1 / 2 := by
  constructor
  · have h := data_body_array (imuSensor.new "/dev/i2c-1".toList Machine.init).1
      (steady_sensor 0 ⟨0, 0, 0, 0⟩ ⟨1 / 2, 0, 0⟩ ⟨0, 0, 0⟩ ⟨0, 0, 0⟩ ⟨0, 0, 0⟩
        ⟨0, 0, 0, 0⟩ ⟨0, 0, 0⟩ ⟨0, 0, 0⟩)
      (imuSensor.new "/dev/i2c-1".toList Machine.init).2
    have h0 : (imuSensor.new "/dev/i2c-1".toList Machine.init).2.next_block = 0 := rfl
    rw [h0] at h
    rw [h]
    simp [readings, steady_sensor, double_to_int, INT_MIN, INT_MAX]
    decide
  · norm_num

/-- C6 (amended): each of the 22 elements of the array of `data()` is the
corresponding reading component converted to `int`: its fractional part is
discarded, which gives the floor of a non-negative and the ceiling of a
negative value; the element equals the reading exactly when the reading is a
whole number, and every whole number that fits an `int` is kept as it is. -/
theorem data_converts_to_int (self : imuSensor) (sen : Sensor) (m : Machine) :
    (self.data_body sen m).2.array (self.data_body sen m).1 =
      some ((readings sen m.calls).map double_to_int) ∧
    (readings sen m.calls).length = 22 ∧
    (∀ (x : ℚ) (v : Int), double_to_int x = some v →
      v = (if 0 ≤ x then ⌊x⌋ else ⌈x⌉) ∧ ((v : ℚ) = x ↔ x.den = 1)) ∧
    (∀ n : Int, INT_MIN ≤ n → n ≤ INT_MAX → double_to_int (n : ℚ) = some n) := by
  refine ⟨data_body_array self sen m, rfl, ?_, double_to_int_of_int⟩
  intro x v h
  refine ⟨?_, double_to_int_exact x v h⟩
  rw [← tdiv_num_den]
  unfold double_to_int at h
  dsimp only at h
  split_ifs at h
  injection h with h
  exact h.symm

/-- C6 (amended) at an accelerometer reading of x = 3/2, y = -3/2, z = 2:
the elements are 1, -1 and 2. -/
theorem data_converts_to_int_witness :
    double_to_int (3 / 2) = some 1 ∧ (1 : Int) = ⌊(3 / 2 : ℚ)⌋ ∧
    double_to_int (-3 / 2) = some (-1) ∧ (-1 : Int) = ⌈(-3 / 2 : ℚ)⌉ ∧
    double_to_int ((2 : Int) : ℚ) = some 2 := by
  have h := (data_converts_to_int (imuSensor.new "/dev/i2c-1".toList Machine.init).1
    (steady_sensor 0 ⟨0, 0, 0, 0⟩ ⟨3 / 2, -3 / 2, 2⟩ ⟨0, 0, 0⟩ ⟨0, 0, 0⟩ ⟨0, 0, 0⟩
      ⟨0, 0, 0, 0⟩ ⟨0, 0, 0⟩ ⟨0, 0, 0⟩)
    (imuSensor.new "/dev/i2c-1".toList Machine.init).2).2.2
  have h1 : double_to_int (3 / 2) = some 1 := by
    norm_num [double_to_int, INT_MIN, INT_MAX]; decide
  have h2 : double_to_int (-3 / 2) = some (-1) := by
    norm_num [double_to_int, INT_MIN, INT_MAX]; decide
  have e1 := (h.1 (3 / 2) 1 h1).1
  have e2 := (h.1 (-3 / 2) (-1) h2).1
  rw [if_pos (by norm_num)] at e1
  rw [if_neg (by norm_num)] at e2
  exact ⟨h1, e1, h2, e2, h.2 2 (by decide) (by decide)⟩

/-! ## C7 and C9: the sample handed to `main` -/

/-- C7 fails on the code: the pointer `imuSensor::data()` returns points into
its own array `data`, whose lifetime has ended when the function has
returned: after the return the array is no longer among the live objects, no
read through the pointer yields a value, and `main`, run from any state, is
undefined at its first read `*(imuData + 0)`. -/
theorem data_returns_dead_storage (I2CBUS : CStr) (self : imuSensor) (sen : Sensor)
    (m : Machine) :
    (self.data sen m).1 = ⟨(self.data_body sen m).1, 0⟩ ∧
    (self.data_body sen m).2.array (self.data_body sen m).1 ≠ none ∧
    (self.data sen m).2.array (self.data sen m).1.block = none ∧
    (∀ i, (self.data sen m).2.load (self.data sen m).1 i = none) ∧
    (∃ m1, main I2CBUS sen m = .undefined m1) := by
  refine ⟨rfl, ?_, data_array_dead self sen m, data_load_dead self sen m,
    ⟨_, main_undefined I2CBUS sen m⟩⟩
  rw [data_body_block, data_body_array]
  exact Option.some_ne_none _

/-- C9 on the code: `imuSensor::data()` calls `get_acc`, `get_mag`,
`get_gyr`, `get_eul`, `get_qua`, `get_gra` and `get_lin` once each in that
order and assigns the elements 0..21 of its array once each in index order,
so that before the return the array holds the 22 components in the order of
`readings`, each converted to `int`; `main` calls `get_i2cbus`, then
`set_mode(ndof_fmc)`, then `data()`, and then prints nothing: its first read
through the returned pointer is undefined. -/
theorem data_order_and_main (I2CBUS : CStr) (self : imuSensor) (sen : Sensor)
    (m : Machine) :
    (self.data_body sen m).2.calls = m.calls ++ data_calls ∧
    (self.data_body sen m).2.writes =
      m.writes ++ (List.range 22).map (fun i => ((self.data_body sen m).1, i)) ∧
    (self.data_body sen m).2.array (self.data_body sen m).1 =
      some ((readings sen m.calls).map double_to_int) ∧
    (∃ m1, main I2CBUS sen Machine.init = .undefined m1 ∧
      m1.calls = [Call.get_i2cbus (char_array 256 I2CBUS) (char_array 256 "0x28".toList),
          Call.set_mode opmode_t.ndof_fmc] ++ data_calls ∧
      m1.writes = (List.range 22).map (fun i => (0, i)) ∧
      m1.stdout = "") := by
  refine ⟨data_body_calls self sen m, data_body_writes self sen m,
    data_body_array self sen m, _, main_undefined I2CBUS sen Machine.init, ?_, ?_, ?_⟩
  · rw [data_calls_eq]
    rfl
  · rw [data_writes_eq]
    rfl
  · rw [data_stdout_eq]
    rfl

end Bno055
